import Mathlib

/-
Verification of the rocky terrain tile paging engine: a shallow embedding of
TileNodeRegistry.cpp (the tile registry state machine: ping, update, the
request functions, eviction) and of the TerrainNode root-tile setup, together
with theorems settling the specification claims about progressive gating,
at-most-one dispatch per slot, queue draining, eviction, merge semantics,
child-batch atomicity, registration and load priorities.

The source compiles with LOAD_ELEVATION_SEPARATELY undefined (the macro is
commented out at TileNodeRegistry.cpp line 24); the embedding follows that
default combined build throughout.
-/

namespace Rocky

/-- Identifier of one quadtree cell: level of detail and x, y coordinates
(the profile is a fixed ambient parameter and is omitted). -/
structure TileKey where
  level : Nat
  x : Nat
  y : Nat
deriving DecidableEq

/-- Modelled from the spec: TileKey::createParentKey (TileKey.cpp is not among
the sources). The parent cell is one level up with halved coordinates. -/
def TileKey.createParentKey (k : TileKey) : TileKey :=
  ⟨k.level - 1, k.x / 2, k.y / 2⟩

/-- Modelled from the spec: TileKey::createChildKey with quadrant 0..3
(TileKey.cpp is not among the sources). Child cell one level down; quadrant
bit 0 selects the column, bit 1 selects the row. -/
def TileKey.createChildKey (k : TileKey) (quadrant : Nat) : TileKey :=
  ⟨k.level + 1, 2 * k.x + quadrant % 2, 2 * k.y + quadrant / 2⟩

/-- Modelled from the spec: the state of one asynchronous slot (util::Future,
not among the sources). A slot moves monotonically through
Empty → Working → Available and is never reversed. -/
inductive SlotState where
  | empty
  | working
  | available
deriving DecidableEq

/-- Future::empty(): no work has been issued into the slot. -/
def SlotState.isEmpty : SlotState → Bool
  | SlotState.empty => true
  | _ => false

/-- Future::working(): work dispatched, result pending. -/
def SlotState.isWorking : SlotState → Bool
  | SlotState.working => true
  | _ => false

/-- Future::available(): the result is ready. -/
def SlotState.isAvailable : SlotState → Bool
  | SlotState.available => true
  | _ => false

/-- An image reference as seen through Image::valid(); the payload the
renderer would read is abstracted to a numeric handle. -/
structure ImageRef where
  valid : Bool
  image : Nat
deriving DecidableEq

/-- One texture plus matrix of the render model (color, elevation or normal
plane of TerrainTileRenderModel). -/
structure RenderLayer where
  image : Nat
  matrix : Int
deriving DecidableEq

/-- The live render model of a tile: what requestMergeData writes into. -/
structure RenderModel where
  color : RenderLayer
  elevation : RenderLayer
  normal : RenderLayer
deriving DecidableEq

/-- One color layer of a TerrainTileModel. -/
structure ColorLayerModel where
  image : ImageRef
  matrix : Int
deriving DecidableEq

/-- The elevation part of a TerrainTileModel: heightfield plus matrix. -/
structure ElevationModel where
  heightfield : ImageRef
  matrix : Int
deriving DecidableEq

/-- The normal map part of a TerrainTileModel. -/
structure NormalMapModel where
  image : ImageRef
  matrix : Int
deriving DecidableEq

/-- TerrainTileModel: the transient value produced by the tile data factory
and consumed by the frame-synchronous merge. -/
structure TerrainTileModel where
  colorLayers : List ColorLayerModel
  elevation : ElevationModel
  normalMap : NormalMapModel
deriving DecidableEq

/-- A TerrainTileModel that carries nothing to merge: no color layers, no
valid heightfield, no valid normal map. -/
def TerrainTileModel.isEmptyModel (m : TerrainTileModel) : Bool :=
  m.colorLayers.isEmpty && !m.elevation.heightfield.valid && !m.normalMap.image.valid

/-- TerrainTileNode: the per-tile state the registry reads and writes — the
five async slots, the flags, and the render model. descriptorsVersion counts
the calls to updateTerrainTileDescriptors (the GPU descriptor writes). -/
structure TerrainTileNode where
  key : TileKey
  dataLoader : SlotState
  dataMerger : SlotState
  elevationLoader : SlotState
  elevationMerger : SlotState
  childrenLoader : SlotState
  needsChildren : Bool
  needsUpdate : Bool
  doNotExpire : Bool
  renderModel : RenderModel
  descriptorsVersion : Nat
deriving DecidableEq

/-- Modelled from the spec: TerrainTileNode::unloadChildren (TerrainTileNode
sources are absent). The parent drops its scene-graph child reference and
cancels any in-flight children loader, so its childrenLoader slot is open
again; the identity, flags and render state of the parent are untouched. -/
def TerrainTileNode.unloadChildren (t : TerrainTileNode) : TerrainTileNode :=
  { t with childrenLoader := SlotState.empty }

/-- A default, all-zero render model for a freshly constructed tile. -/
def RenderModel.initial : RenderModel :=
  { color := { image := 0, matrix := 0 }
    elevation := { image := 0, matrix := 0 }
    normal := { image := 0, matrix := 0 } }

/-- Modelled from the spec where the TerrainTileNode constructor is not among
the sources: a freshly created tile has all five async slots empty,
needsChildren set (children not yet requested), needsUpdate and doNotExpire
clear; per TileNodeRegistry::createTile lines 295-297 it inherits the render
model of its parent when one is given. -/
def mkFreshTile (key : TileKey) (parent : Option TerrainTileNode) : TerrainTileNode :=
  { key := key
    dataLoader := SlotState.empty
    dataMerger := SlotState.empty
    elevationLoader := SlotState.empty
    elevationMerger := SlotState.empty
    childrenLoader := SlotState.empty
    needsChildren := true
    needsUpdate := false
    doNotExpire := false
    renderModel :=
      match parent with
      | none => RenderModel.initial
      | some p => p.renderModel
    descriptorsVersion := 0 }

/-- TerrainNode::createRootTiles lines 104-117: one tile per key at the
minimum level of detail, created with no parent and marked doNotExpire so it
can never page out. -/
def createRootTiles (keys : List TileKey) : List TerrainTileNode :=
  keys.map fun k => { mkFreshTile k none with doNotExpire := true }

/-- The registry key→node mapping `_tiles`, as an association list read through
its first matching entry. -/
abbrev TileMap := List (TileKey × Rocky.TerrainTileNode)

/-- Lookup in `_tiles` (std::map::find). -/
def lookupTile : TileMap → TileKey → Option TerrainTileNode
  | [], _ => none
  | (k, t) :: rest, key => if k = key then some t else lookupTile rest key

/-- Write through an existing map entry (mutation through the stored
pointer); a key that is not present is left absent. -/
def setTile : TileMap → TileKey → TerrainTileNode → TileMap
  | [], _, _ => []
  | (k, t) :: rest, key, t2 =>
      if k = key then (k, t2) :: rest else (k, t) :: setTile rest key t2

/-- Erase a key from `_tiles` (std::map::erase). -/
def eraseTile : TileMap → TileKey → TileMap
  | [], _ => []
  | (k, t) :: rest, key =>
      if k = key then eraseTile rest key else (k, t) :: eraseTile rest key

/-- Modelled from the spec: the tracker is a recency structure over the live
tiles; each entry records a tracked key and whether it was touched (pinged)
since the last flush. Tokens and the most-recently-used ordering are
abstracted away: flush visits every entry and no claim depends on the
visiting order. -/
abbrev TrackerList := List (TileKey × Bool)

/-- Modelled from the spec: Tracker::use — refresh the entry for a key as
touched, inserting a fresh entry when none exists. -/
def touchEntry : TrackerList → TileKey → TrackerList
  | [], key => [(key, true)]
  | (k, b) :: rest, key =>
      if k = key then (k, true) :: rest else (k, b) :: touchEntry rest key

/-- TileNodeRegistry state: the key→node map `_tiles`, the tracker, and the
six pending-work queues. -/
structure Registry where
  tiles : TileMap
  tracker : TrackerList
  loadChildren : List TileKey
  loadElevation : List TileKey
  mergeElevation : List TileKey
  loadData : List TileKey
  mergeData : List TileKey
  updateData : List TileKey
deriving DecidableEq

/-- Parent gate of the elevation load (TileNodeRegistry.cpp line 101):
true when the tile has no parent or the parent elevationMerger is
available. -/
def parentHasElevation : Option TerrainTileNode → Bool
  | none => true
  | some p => p.elevationMerger.isAvailable

/-- Parent gate of the data load (TileNodeRegistry.cpp line 105): true when
the tile has no parent or the parent dataMerger is available. -/
def parentHasData : Option TerrainTileNode → Bool
  | none => true
  | some p => p.dataMerger.isAvailable

/-- First half of TileNodeRegistry::ping (lines 57-70): keep the tile alive —
insert a new map entry plus tracker entry when the key is unknown, otherwise
refresh the existing tracker entry. The stored node is the pinged node (the
map stores the same pointer that is pinged). -/
def pingTrack (r : Registry) (tile : TerrainTileNode) : Registry :=
  match lookupTile r.tiles tile.key with
  | none =>
      { r with
        tiles := (tile.key, tile) :: r.tiles
        tracker := touchEntry r.tracker tile.key }
  | some _ =>
      { r with tracker := touchEntry r.tracker tile.key }

/-- Second half of TileNodeRegistry::ping (lines 72-131), default combined
build: the queue pushes with their gates. tileHasElevation aliases
tileHasData because LOAD_ELEVATION_SEPARATELY is not defined (lines 90-96).
Each push appends the tile key to the corresponding queue exactly when its
gate holds:
  - loadChildren (line 98): own data (and aliased elevation) merge available
    and needsChildren set;
  - loadElevation (lines 101-103): parent elevation merge available (or no
    parent) and the elevation loader slot empty;
  - loadData (lines 105-107): parent data merge available (or no parent) and
    the data loader slot empty;
  - mergeElevation (lines 121-122): elevation load available and the
    elevation merger slot empty;
  - mergeData (lines 126-127): data load available and the data merger slot
    empty;
  - updateData (lines 129-130): the needsUpdate flag. -/
def pingQueues (r : Registry) (tile : TerrainTileNode) (parent : Option TerrainTileNode) :
    Registry :=
  let tileHasData := tile.dataMerger.isAvailable
  let tileHasElevation := tileHasData
  { r with
    loadChildren := r.loadChildren ++
      (if tileHasData && tileHasElevation && tile.needsChildren then [tile.key] else [])
    loadElevation := r.loadElevation ++
      (if parentHasElevation parent && tile.elevationLoader.isEmpty then [tile.key] else [])
    loadData := r.loadData ++
      (if parentHasData parent && tile.dataLoader.isEmpty then [tile.key] else [])
    mergeElevation := r.mergeElevation ++
      (if tile.elevationLoader.isAvailable && tile.elevationMerger.isEmpty then [tile.key] else [])
    mergeData := r.mergeData ++
      (if tile.dataLoader.isAvailable && tile.dataMerger.isEmpty then [tile.key] else [])
    updateData := r.updateData ++
      (if tile.needsUpdate then [tile.key] else []) }

/-- TileNodeRegistry::ping (lines 54-131): tracker upkeep followed by the
gated queue pushes. -/
def ping (r : Registry) (tile : TerrainTileNode) (parent : Option TerrainTileNode) :
    Registry :=
  pingQueues (pingTrack r tile) tile parent

/-- Instrumentation of the update pass: one record per job actually handed
to the scheduler (or per update hook / parent unload actually invoked). -/
inductive DispatchEvent where
  | updateTile (key : TileKey)
  | loadChildren (key : TileKey)
  | loadData (key : TileKey)
  | mergeData (key : TileKey)
  | loadElevation (key : TileKey)
  | mergeElevation (key : TileKey)
  | unloadChildren (key : TileKey)
deriving DecidableEq

/-- Guard and dispatch of TileNodeRegistry::requestLoadChildren (lines
325-381): no-op when the childrenLoader slot is not empty (line 328);
otherwise the children-creation job is dispatched and the slot starts
working. The Boolean reports whether a job was dispatched. -/
def requestLoadChildren (parent : TerrainTileNode) : TerrainTileNode × Bool :=
  if !parent.childrenLoader.isEmpty then (parent, false)
  else ({ parent with childrenLoader := SlotState.working }, true)

/-- Guard and dispatch of TileNodeRegistry::requestLoadData (lines 385-443):
no-op when the dataLoader slot is working or available (line 393); otherwise
the load job is dispatched and the slot starts working. -/
def requestLoadData (tile : TerrainTileNode) : TerrainTileNode × Bool :=
  if tile.dataLoader.isWorking || tile.dataLoader.isAvailable then (tile, false)
  else ({ tile with dataLoader := SlotState.working }, true)

/-- Guard and dispatch of TileNodeRegistry::requestMergeData (lines 446-540):
no-op when the dataMerger slot is working or available (line 454); otherwise
the merge operation is scheduled onto the update thread and the dataMerger
future starts working. -/
def requestMergeData (tile : TerrainTileNode) : TerrainTileNode × Bool :=
  if tile.dataMerger.isWorking || tile.dataMerger.isAvailable then (tile, false)
  else ({ tile with dataMerger := SlotState.working }, true)

/-- One queue-draining loop of TileNodeRegistry::update: visit the queued
keys in order; for each key still present in `_tiles`, run the request
against the stored node, apply post (the statement following the request in
the loop body, e.g. clearing needsChildren), store the result back through
the map entry, and record the event when a job was dispatched. -/
def processQueue (request : TerrainTileNode → TerrainTileNode × Bool)
    (post : TerrainTileNode → TerrainTileNode) (ev : TileKey → DispatchEvent) :
    List TileKey → TileMap → TileMap × List DispatchEvent
  | [], tiles => (tiles, [])
  | key :: rest, tiles =>
    match lookupTile tiles key with
    | none => processQueue request post ev rest tiles
    | some tile =>
      let req := request tile
      let out := processQueue request post ev rest (setTile tiles key (post req.1))
      (out.1, (if req.2 then [ev key] else []) ++ out.2)

/-- Modelled from the spec: Tracker::flush with an unbounded cap, with the
dispose lambda of TileNodeRegistry::update (lines 228-246) inlined. Every
entry not touched since the last flush is offered to dispose: a doNotExpire
tile refuses and stays; otherwise the parent entry, when present in the map,
is asked to unload its children (through the stored node), the key is erased
from the map, and the tracker entry is removed. Entries that survive start
the next pass untouched. -/
def flushTracker : TrackerList → TileMap →
    TileMap × TrackerList × List DispatchEvent
  | [], tiles => (tiles, [], [])
  | entry :: rest, tiles =>
    if entry.2 then
      let out := flushTracker rest tiles
      (out.1, (entry.1, false) :: out.2.1, out.2.2)
    else
      match lookupTile tiles entry.1 with
      | none => flushTracker rest tiles
      | some tile =>
        if tile.doNotExpire then
          let out := flushTracker rest tiles
          (out.1, (entry.1, false) :: out.2.1, out.2.2)
        else
          let afterParent : TileMap × List DispatchEvent :=
            match lookupTile tiles tile.key.createParentKey with
            | none => (tiles, [])
            | some parent =>
                (setTile tiles tile.key.createParentKey parent.unloadChildren,
                 [DispatchEvent.unloadChildren tile.key.createParentKey])
          let out := flushTracker rest (eraseTile afterParent.1 tile.key)
          (out.1, out.2.1, afterParent.2 ++ out.2.2)

/-- TileNodeRegistry::update (lines 133-247), default combined build: drain
updateData, loadChildren, loadData and mergeData in this order, then flush
the tracker. The LOAD_ELEVATION_SEPARATELY blocks that would drain
loadElevation and mergeElevation (lines 174-196) are compiled out, so those
two queues pass through unchanged. Returns the new registry state and the
dispatch record. -/
def update (r : Registry) : Registry × List DispatchEvent :=
  let s1 := processQueue (fun t => (t, true)) id DispatchEvent.updateTile
    r.updateData r.tiles
  let s2 := processQueue requestLoadChildren (fun t => { t with needsChildren := false })
    DispatchEvent.loadChildren r.loadChildren s1.1
  let s3 := processQueue requestLoadData id DispatchEvent.loadData r.loadData s2.1
  let s4 := processQueue requestMergeData id DispatchEvent.mergeData r.mergeData s3.1
  let s5 := flushTracker r.tracker s4.1
  ({ tiles := s5.1
     tracker := s5.2.1
     loadChildren := []
     loadElevation := r.loadElevation
     mergeElevation := r.mergeElevation
     loadData := []
     mergeData := []
     updateData := [] },
   s1.2 ++ s2.2 ++ s3.2 ++ s4.2 ++ s5.2.2)

/-- TileNodeRegistry::getTile (lines 311-319): a pure map lookup returning
null when the key is not registered; the registry is not modified. -/
def getTile (r : Registry) (key : TileKey) : Option TerrainTileNode :=
  lookupTile r.tiles key

/-- TileNodeRegistry::createTile (lines 249-309): builds a new tile node from
pooled geometry, the selection-info uniforms and the parent render model.
The body reads only the terrain context; it never touches the key→node map
`_tiles`, so the registry component of the result is the input registry. -/
def createTile (r : Registry) (key : TileKey) (parent : Option TerrainTileNode) :
    Registry × TerrainTileNode :=
  (r, mkFreshTile key parent)

/-- Body of the merge lambda of TileNodeRegistry::requestMergeData (lines
476-520), default combined build, applied to the tile the closure found and
the model read out of dataLoader: install the first color layer when its
image is valid (marking updated whenever any color layer exists, lines
480-489), the heightfield (lines 492-503) and the normal map (lines 505-511)
when valid, and bump the GPU descriptors only when something was updated
(lines 514-520). setElevation only recomputes bounds and is outside the
model. -/
def applyMergeData (tile : TerrainTileNode) (model : TerrainTileModel) :
    TerrainTileNode :=
  let rm := tile.renderModel
  let step1 : RenderModel × Bool :=
    match model.colorLayers with
    | [] => (rm, false)
    | layer :: _ =>
      (if layer.image.valid then
        { rm with color := { image := layer.image.image, matrix := layer.matrix } }
       else rm, true)
  let step2 : RenderModel × Bool :=
    if model.elevation.heightfield.valid then
      ({ step1.1 with
          elevation := { image := model.elevation.heightfield.image
                         matrix := model.elevation.matrix } }, true)
    else step1
  let step3 : RenderModel × Bool :=
    if model.normalMap.image.valid then
      ({ step2.1 with
          normal := { image := model.normalMap.image.image
                      matrix := model.normalMap.matrix } }, true)
    else step2
  if step3.2 then
    { tile with
        renderModel := step3.1
        descriptorsVersion := tile.descriptorsVersion + 1 }
  else tile

/-- The merge lambda of TileNodeRegistry::requestMergeData (lines 462-524):
returns false immediately when cancelled; otherwise looks the tile up (found
is what getTile returned), merges into it when found, and returns true in
every non-cancelled case — also when the model was empty and nothing was
updated. -/
def mergeDataBody (canceled : Bool) (found : Option TerrainTileNode)
    (model : TerrainTileModel) : Option TerrainTileNode × Bool :=
  if canceled then (found, false)
  else
    match found with
    | none => (none, true)
    | some tile => (some (applyMergeData tile model), true)

/-- Modelled from the spec: completion of the scheduled merge operation flips
the dataMerger future of the tile from working to available (slot
transitions are monotonic and completion is never retracted). -/
def completeMergeData (tile : TerrainTileNode) (canceled : Bool)
    (model : TerrainTileModel) : TerrainTileNode :=
  match (mergeDataBody canceled (some tile) model).1 with
  | some t2 => { t2 with dataMerger := SlotState.available }
  | none => { tile with dataMerger := SlotState.available }

/-- Inner loop of the create_children lambda of
TileNodeRegistry::requestLoadChildren (lines 342-360), written with the
remaining quadrant count as fuel (remaining + quadrant = 4 at every call):
before each quadrant the cancellation token is checked and a cancelled batch
yields the null result; a null tile from createTile (the soft assert at line
354) also yields the null result; otherwise the child is appended and the
loop continues. -/
def createChildrenLoop (pk : TileKey) (canceled : Nat → Bool)
    (buildTile : TileKey → Option TerrainTileNode) :
    Nat → Nat → List TerrainTileNode → Option (List TerrainTileNode)
  | 0, _, acc => some acc
  | remaining + 1, quadrant, acc =>
    if canceled quadrant then none
    else
      match buildTile (pk.createChildKey quadrant) with
      | none => none
      | some tile =>
          createChildrenLoop pk canceled buildTile remaining (quadrant + 1) (acc ++ [tile])

/-- The create_children lambda of TileNodeRegistry::requestLoadChildren
(lines 334-364): a dead weak parent reference leaves the result null;
otherwise the four quadrants are built in order and the quad group is
assigned only once all four children were added. canceled models the
cancellation token observed before each quadrant and buildTile the outcome
of the nested createTile call. -/
def createChildrenJob (parentKey : Option TileKey) (canceled : Nat → Bool)
    (buildTile : TileKey → Option TerrainTileNode) : Option (List TerrainTileNode) :=
  match parentKey with
  | none => none
  | some pk => createChildrenLoop pk canceled buildTile 4 0 []

/-- Priority lambda of requestLoadChildren (lines 367-371), as a function of
whether the weak tile reference still resolves, of sqrtRange — the already
evaluated sqrt of tile.lastTraversalRange — and of the level of detail. -/
def loadChildrenPriority (tileAlive : Bool) (sqrtRange lod : ℚ) : ℚ :=
  if tileAlive then -(sqrtRange * lod) else 0

/-- Priority lambda of requestLoadData (lines 430-434). -/
def loadDataPriority (tileAlive : Bool) (sqrtRange lod : ℚ) : ℚ :=
  if tileAlive then -(sqrtRange * lod) else 0

/-- Priority lambda of requestLoadElevation (lines 585-589): note the extra
0.9 factor between the square root and the level of detail. -/
def loadElevationPriority (tileAlive : Bool) (sqrtRange lod : ℚ) : ℚ :=
  if tileAlive then -(sqrtRange * (9 / 10) * lod) else 0

/-- Modelled from the spec: the single priority formula the spec asserts for
every dispatched load job, -(sqrt(tile.lastTraversalRange) *
tile.levelOfDetail), evaluating to 0 once the tile has been destroyed. -/
def specLoadPriority (tileAlive : Bool) (sqrtRange lod : ℚ) : ℚ :=
  if tileAlive then -(sqrtRange * lod) else 0

theorem lookupTile_setTile_self (m : TileMap) (k : TileKey) (t u : TerrainTileNode)
    (h : lookupTile m k = some u) : lookupTile (setTile m k t) k = some t := by
  induction m with
  | nil => simp [lookupTile] at h
  | cons hd rest ih =>
    by_cases hk : hd.1 = k
    · simp [setTile, lookupTile, hk]
    · simp [setTile, lookupTile, hk] at h ⊢
      exact ih h

theorem setTile_of_lookup_none (m : TileMap) (k : TileKey) (t : TerrainTileNode)
    (h : lookupTile m k = none) : setTile m k t = m := by
  induction m with
  | nil => rfl
  | cons hd rest ih =>
    by_cases hk : hd.1 = k
    · simp [lookupTile, hk] at h
    · simp [setTile, lookupTile, hk] at h ⊢
      exact ih h

theorem lookupTile_setTile_ne (m : TileMap) (k k2 : TileKey) (t : TerrainTileNode)
    (h : k2 ≠ k) : lookupTile (setTile m k t) k2 = lookupTile m k2 := by
  induction m with
  | nil => rfl
  | cons hd rest ih =>
    by_cases hk : hd.1 = k
    · subst hk
      have hne : hd.1 ≠ k2 := fun hh => h hh.symm
      simp [setTile, lookupTile, hne]
    · simp only [setTile, lookupTile, if_neg hk]
      by_cases hk2 : hd.1 = k2
      · simp [lookupTile, hk2]
      · simp [lookupTile, hk2, ih]

theorem lookupTile_eraseTile_self (m : TileMap) (k : TileKey) :
    lookupTile (eraseTile m k) k = none := by
  induction m with
  | nil => rfl
  | cons hd rest ih =>
    by_cases hk : hd.1 = k
    · simp [eraseTile, hk, ih]
    · simp [eraseTile, lookupTile, hk, ih]

theorem lookupTile_eraseTile_ne (m : TileMap) (k k2 : TileKey)
    (h : k2 ≠ k) : lookupTile (eraseTile m k) k2 = lookupTile m k2 := by
  induction m with
  | nil => rfl
  | cons hd rest ih =>
    by_cases hk : hd.1 = k
    · subst hk
      have hne : hd.1 ≠ k2 := fun hh => h hh.symm
      simp [eraseTile, lookupTile, hne, ih]
    · simp only [eraseTile, if_neg hk]
      by_cases hk2 : hd.1 = k2
      · simp [lookupTile, hk2]
      · simp [lookupTile, hk2, ih]

theorem lookupTile_setTile_none (m : TileMap) (k k2 : TileKey) (t : TerrainTileNode)
    (h : lookupTile m k2 = none) : lookupTile (setTile m k t) k2 = none := by
  by_cases hk : k2 = k
  · subst hk
    rw [setTile_of_lookup_none m k2 t h]
    exact h
  · rw [lookupTile_setTile_ne m k k2 t hk]
    exact h

/-- Well-formedness of the key→node map: every stored node carries the key it
is stored under (ping inserts each node under its own key). -/
def TileMapWF (m : TileMap) : Prop :=
  ∀ k t, lookupTile m k = some t → t.key = k

theorem TileMapWF_setTile (m : TileMap) (k : TileKey) (t : TerrainTileNode)
    (hm : TileMapWF m) (ht : t.key = k) : TileMapWF (setTile m k t) := by
  intro k2 t2 h
  by_cases hk : k2 = k
  · subst hk
    cases hl : lookupTile m k2 with
    | none => rw [setTile_of_lookup_none m k2 t hl] at h; exact hm k2 t2 h
    | some u =>
      rw [lookupTile_setTile_self m k2 t u hl] at h
      cases h
      exact ht
  · rw [lookupTile_setTile_ne m k k2 t hk] at h
    exact hm k2 t2 h

theorem TileMapWF_eraseTile (m : TileMap) (k : TileKey) (hm : TileMapWF m) :
    TileMapWF (eraseTile m k) := by
  intro k2 t2 h
  by_cases hk : k2 = k
  · subst hk
    rw [lookupTile_eraseTile_self] at h
    cases h
  · rw [lookupTile_eraseTile_ne m k k2 hk] at h
    exact hm k2 t2 h

theorem unloadChildren_key (t : TerrainTileNode) : t.unloadChildren.key = t.key := rfl

theorem unloadChildren_doNotExpire (t : TerrainTileNode) :
    t.unloadChildren.doNotExpire = t.doNotExpire := rfl

theorem unloadChildren_needsChildren (t : TerrainTileNode) :
    t.unloadChildren.needsChildren = t.needsChildren := rfl

theorem touchEntry_of_not_mem (tr : TrackerList) (k : TileKey)
    (h : ∀ b, (k, b) ∉ tr) : touchEntry tr k = tr ++ [(k, true)] := by
  induction tr with
  | nil => rfl
  | cons hd rest ih =>
    have hd1 : hd.1 ≠ k := by
      intro hk
      exact h hd.2 (by rw [← hk]; exact List.mem_cons_self hd rest)
    simp only [touchEntry, if_neg hd1, List.cons_append]
    rw [ih fun b hb => h b (List.mem_cons_of_mem hd hb)]

theorem pingTrack_queues (r : Registry) (t : TerrainTileNode) :
    (pingTrack r t).loadChildren = r.loadChildren ∧
    (pingTrack r t).loadElevation = r.loadElevation ∧
    (pingTrack r t).mergeElevation = r.mergeElevation ∧
    (pingTrack r t).loadData = r.loadData ∧
    (pingTrack r t).mergeData = r.mergeData ∧
    (pingTrack r t).updateData = r.updateData := by
  unfold pingTrack
  cases lookupTile r.tiles t.key <;> exact ⟨rfl, rfl, rfl, rfl, rfl, rfl⟩

theorem ping_tracker_eq (r : Registry) (t : TerrainTileNode)
    (parent : Option TerrainTileNode) :
    (ping r t parent).tracker = touchEntry r.tracker t.key := by
  unfold ping pingQueues pingTrack
  cases lookupTile r.tiles t.key <;> rfl

theorem ping_tiles_of_mem (r : Registry) (t u : TerrainTileNode)
    (parent : Option TerrainTileNode) (h : lookupTile r.tiles t.key = some u) :
    (ping r t parent).tiles = r.tiles := by
  unfold ping pingQueues pingTrack
  rw [h]

theorem ping_tiles_of_absent (r : Registry) (t : TerrainTileNode)
    (parent : Option TerrainTileNode) (h : lookupTile r.tiles t.key = none) :
    (ping r t parent).tiles = (t.key, t) :: r.tiles := by
  unfold ping pingQueues pingTrack
  rw [h]

theorem ping_loadData_eq (r : Registry) (t : TerrainTileNode)
    (parent : Option TerrainTileNode) :
    (ping r t parent).loadData = r.loadData ++
      (if parentHasData parent && t.dataLoader.isEmpty then [t.key] else []) := by
  unfold ping pingQueues
  simp only []
  rw [(pingTrack_queues r t).2.2.2.1]

theorem ping_loadElevation_eq (r : Registry) (t : TerrainTileNode)
    (parent : Option TerrainTileNode) :
    (ping r t parent).loadElevation = r.loadElevation ++
      (if parentHasElevation parent && t.elevationLoader.isEmpty then [t.key] else []) := by
  unfold ping pingQueues
  simp only []
  rw [(pingTrack_queues r t).2.1]

theorem ping_loadChildren_eq (r : Registry) (t : TerrainTileNode)
    (parent : Option TerrainTileNode) :
    (ping r t parent).loadChildren = r.loadChildren ++
      (if t.dataMerger.isAvailable && t.needsChildren then [t.key] else []) := by
  unfold ping pingQueues
  simp only []
  rw [(pingTrack_queues r t).1]
  cases hd : t.dataMerger.isAvailable <;> simp [hd]

theorem ping_mergeData_eq (r : Registry) (t : TerrainTileNode)
    (parent : Option TerrainTileNode) :
    (ping r t parent).mergeData = r.mergeData ++
      (if t.dataLoader.isAvailable && t.dataMerger.isEmpty then [t.key] else []) := by
  unfold ping pingQueues
  simp only []
  rw [(pingTrack_queues r t).2.2.2.2.1]

theorem ping_mergeElevation_eq (r : Registry) (t : TerrainTileNode)
    (parent : Option TerrainTileNode) :
    (ping r t parent).mergeElevation = r.mergeElevation ++
      (if t.elevationLoader.isAvailable && t.elevationMerger.isEmpty then [t.key] else []) := by
  unfold ping pingQueues
  simp only []
  rw [(pingTrack_queues r t).2.2.1]

theorem ping_updateData_eq (r : Registry) (t : TerrainTileNode)
    (parent : Option TerrainTileNode) :
    (ping r t parent).updateData = r.updateData ++
      (if t.needsUpdate then [t.key] else []) := by
  unfold ping pingQueues
  simp only []
  rw [(pingTrack_queues r t).2.2.2.2.2]

theorem processQueue_lookup_not_mem (request : TerrainTileNode → TerrainTileNode × Bool)
    (post : TerrainTileNode → TerrainTileNode) (ev : TileKey → DispatchEvent)
    (queue : List TileKey) (m : TileMap) (k : TileKey) (h : k ∉ queue) :
    lookupTile (processQueue request post ev queue m).1 k = lookupTile m k := by
  induction queue generalizing m with
  | nil => rfl
  | cons key rest ih =>
    have hk : k ≠ key := fun hh => h (hh ▸ List.mem_cons_self key rest)
    have hrest : k ∉ rest := fun hh => h (List.mem_cons_of_mem key hh)
    cases hl : lookupTile m key with
    | none => simp only [processQueue, hl]; exact ih m hrest
    | some tile =>
      simp only [processQueue, hl]
      rw [ih _ hrest]
      exact lookupTile_setTile_ne m key k _ hk

theorem processQueue_events_shape (request : TerrainTileNode → TerrainTileNode × Bool)
    (post : TerrainTileNode → TerrainTileNode) (ev : TileKey → DispatchEvent)
    (queue : List TileKey) (m : TileMap) :
    ∀ e ∈ (processQueue request post ev queue m).2, ∃ k, k ∈ queue ∧ e = ev k := by
  induction queue generalizing m with
  | nil => intro e he; simp [processQueue] at he
  | cons key rest ih =>
    intro e he
    cases hl : lookupTile m key with
    | none =>
      simp only [processQueue, hl] at he
      obtain ⟨k, hk, hek⟩ := ih m e he
      exact ⟨k, List.mem_cons_of_mem key hk, hek⟩
    | some tile =>
      simp only [processQueue, hl, List.mem_append] at he
      rcases he with he | he
      · refine ⟨key, List.mem_cons_self key rest, ?_⟩
        by_cases hdisp : (request tile).2 <;> simp [hdisp] at he
        exact he
      · obtain ⟨k, hk, hek⟩ := ih _ e he
        exact ⟨k, List.mem_cons_of_mem key hk, hek⟩

theorem processQueue_count_zero_of_not_mem
    (request : TerrainTileNode → TerrainTileNode × Bool)
    (post : TerrainTileNode → TerrainTileNode) (ev : TileKey → DispatchEvent)
    (hinj : ∀ k1 k2, ev k1 = ev k2 → k1 = k2)
    (queue : List TileKey) (m : TileMap) (k : TileKey) (h : k ∉ queue) :
    ((processQueue request post ev queue m).2).count (ev k) = 0 := by
  rw [List.count_eq_zero]
  intro hmem
  obtain ⟨k2, hk2, hek⟩ := processQueue_events_shape request post ev queue m _ hmem
  exact h ((hinj k2 k hek.symm) ▸ hk2)

theorem processQueue_count_zero_of_guard
    (request : TerrainTileNode → TerrainTileNode × Bool)
    (post : TerrainTileNode → TerrainTileNode) (ev : TileKey → DispatchEvent)
    (hinj : ∀ k1 k2, ev k1 = ev k2 → k1 = k2)
    (hid : ∀ t, (request t).2 = false → (request t).1 = t)
    (hpres : ∀ t, (request t).2 = false → (request (post t)).2 = false)
    (queue : List TileKey) (m : TileMap) (k : TileKey)
    (hG : ∀ u, lookupTile m k = some u → (request u).2 = false) :
    ((processQueue request post ev queue m).2).count (ev k) = 0 := by
  induction queue generalizing m with
  | nil => rfl
  | cons key rest ih =>
    cases hl : lookupTile m key with
    | none =>
      simp only [processQueue, hl]
      exact ih m hG
    | some tile =>
      by_cases hkey : key = k
      · subst hkey
        have hreq : (request tile).2 = false := hG tile hl
        simp only [processQueue, hl, hreq, if_neg (Bool.false_ne_true), List.nil_append]
        refine ih _ ?_
        intro u hu
        rw [lookupTile_setTile_self m key _ tile hl] at hu
        cases hu
        rw [hid tile hreq]
        exact hpres tile hreq
      · simp only [processQueue, hl, List.count_append]
        have h1 : (if (request tile).2 then [ev key] else []).count (ev k) = 0 := by
          by_cases hdisp : (request tile).2 <;> simp [hdisp, List.count_cons]
          intro hek
          exact hkey (hinj key k hek)
        rw [h1]
        simp only [Nat.zero_add]
        refine ih _ ?_
        intro u hu
        rw [lookupTile_setTile_ne m key k _ (fun hh => hkey hh.symm)] at hu
        exact hG u hu

theorem processQueue_count_le_one
    (request : TerrainTileNode → TerrainTileNode × Bool)
    (post : TerrainTileNode → TerrainTileNode) (ev : TileKey → DispatchEvent)
    (hinj : ∀ k1 k2, ev k1 = ev k2 → k1 = k2)
    (hid : ∀ t, (request t).2 = false → (request t).1 = t)
    (hpres : ∀ t, (request t).2 = false → (request (post t)).2 = false)
    (hstep : ∀ t, (request t).2 = true → (request (post (request t).1)).2 = false)
    (queue : List TileKey) (m : TileMap) (k : TileKey) :
    ((processQueue request post ev queue m).2).count (ev k) ≤ 1 := by
  induction queue generalizing m with
  | nil => simp [processQueue]
  | cons key rest ih =>
    cases hl : lookupTile m key with
    | none =>
      simp only [processQueue, hl]
      exact ih m
    | some tile =>
      by_cases hdisp : (request tile).2
      · by_cases hkey : key = k
        · subst hkey
          have hz : ((processQueue request post ev rest
              (setTile m key (post (request tile).1))).2).count (ev key) = 0 := by
            refine processQueue_count_zero_of_guard request post ev hinj hid hpres rest _ key ?_
            intro u hu
            rw [lookupTile_setTile_self m key _ tile hl] at hu
            cases hu
            exact hstep tile hdisp
          simp only [processQueue, hl]
          rw [if_pos hdisp]
          simp [List.count_append, List.count_cons, hz]
        · have hne : (ev key == ev k) = false := by
            rw [beq_eq_false_iff_ne]
            intro hek
            exact hkey (hinj key k hek)
          simp only [processQueue, hl]
          rw [if_pos hdisp]
          simp only [List.count_append, List.count_cons, List.count_nil, hne,
            Bool.false_eq_true, if_neg, Nat.zero_add]
          simpa using ih (setTile m key (post (request tile).1))
      · simp only [processQueue, hl, hdisp]
        simp only [Bool.false_eq_true, if_neg, List.nil_append]
        exact ih _

theorem processQueue_preserves (request : TerrainTileNode → TerrainTileNode × Bool)
    (post : TerrainTileNode → TerrainTileNode) (ev : TileKey → DispatchEvent)
    (P : TerrainTileNode → Prop)
    (hP : ∀ t, P t → P (post (request t).1))
    (queue : List TileKey) (m : TileMap) (k : TileKey) (u : TerrainTileNode)
    (h : lookupTile m k = some u) (hu : P u) :
    ∃ v, lookupTile (processQueue request post ev queue m).1 k = some v ∧ P v := by
  induction queue generalizing m u with
  | nil => exact ⟨u, h, hu⟩
  | cons key rest ih =>
    by_cases hkey : key = k
    · subst hkey
      simp only [processQueue, h]
      exact ih _ (post (request u).1)
        (lookupTile_setTile_self m key _ u h) (hP u hu)
    · cases hl : lookupTile m key with
      | none =>
        simp only [processQueue, hl]
        exact ih m u h hu
      | some tile =>
        simp only [processQueue, hl]
        refine ih _ u ?_ hu
        rw [lookupTile_setTile_ne m key k _ (fun hh => hkey hh.symm)]
        exact h

theorem processQueue_WF (request : TerrainTileNode → TerrainTileNode × Bool)
    (post : TerrainTileNode → TerrainTileNode) (ev : TileKey → DispatchEvent)
    (hkey : ∀ t, (post (request t).1).key = t.key)
    (queue : List TileKey) (m : TileMap) (hm : TileMapWF m) :
    TileMapWF (processQueue request post ev queue m).1 := by
  induction queue generalizing m with
  | nil => exact hm
  | cons key rest ih =>
    cases hl : lookupTile m key with
    | none =>
      simp only [processQueue, hl]
      exact ih m hm
    | some tile =>
      simp only [processQueue, hl]
      refine ih _ (TileMapWF_setTile m key _ hm ?_)
      rw [hkey tile]
      exact hm key tile hl

theorem processQueue_append (request : TerrainTileNode → TerrainTileNode × Bool)
    (post : TerrainTileNode → TerrainTileNode) (ev : TileKey → DispatchEvent)
    (q1 q2 : List TileKey) (m : TileMap) :
    processQueue request post ev (q1 ++ q2) m =
      ((processQueue request post ev q2 (processQueue request post ev q1 m).1).1,
       (processQueue request post ev q1 m).2 ++
         (processQueue request post ev q2 (processQueue request post ev q1 m).1).2) := by
  induction q1 generalizing m with
  | nil => simp [processQueue]
  | cons key rest ih =>
    cases hl : lookupTile m key with
    | none =>
      simp only [List.cons_append, processQueue, hl]
      exact ih m
    | some tile =>
      simp only [List.cons_append, processQueue, hl]
      have ih2 : ∀ mm : TileMap, processQueue request post ev (rest.append q2) mm =
          ((processQueue request post ev q2 (processQueue request post ev rest mm).1).1,
            (processQueue request post ev rest mm).2 ++
              (processQueue request post ev q2 (processQueue request post ev rest mm).1).2) :=
        fun mm => ih mm
      rw [ih2]
      simp [List.append_assoc]

theorem processQueue_singleton_dispatch
    (request : TerrainTileNode → TerrainTileNode × Bool)
    (post : TerrainTileNode → TerrainTileNode) (ev : TileKey → DispatchEvent)
    (k : TileKey) (m : TileMap) (tile : TerrainTileNode)
    (h : lookupTile m k = some tile) (hdisp : (request tile).2 = true) :
    processQueue request post ev [k] m =
      (setTile m k (post (request tile).1), [ev k]) := by
  simp [processQueue, h, hdisp]

theorem lookupTile_eraseTile_none (m : TileMap) (k k2 : TileKey)
    (h : lookupTile m k2 = none) : lookupTile (eraseTile m k) k2 = none := by
  by_cases hk : k2 = k
  · subst hk
    exact lookupTile_eraseTile_self m k2
  · rw [lookupTile_eraseTile_ne m k k2 hk]
    exact h

theorem flushTracker_events_shape (entries : TrackerList) (m : TileMap) :
    ∀ e ∈ (flushTracker entries m).2.2, ∃ k, e = DispatchEvent.unloadChildren k := by
  induction entries generalizing m with
  | nil => intro e he; simp [flushTracker] at he
  | cons entry rest ih =>
    obtain ⟨k1, b⟩ := entry
    intro e he
    cases b
    · simp only [flushTracker] at he
      cases hl : lookupTile m k1 with
      | none =>
        rw [hl] at he
        simp at he
        exact ih m e he
      | some tile =>
        rw [hl] at he
        by_cases hx : tile.doNotExpire
        · simp [hx] at he
          exact ih m e he
        · simp only [hx, Bool.false_eq_true, if_neg, if_false] at he
          simp only [List.mem_append] at he
          cases hp : lookupTile m tile.key.createParentKey <;> rw [hp] at he <;> simp at he
          · exact ih _ e he
          · rcases he with he | he
            · exact ⟨tile.key.createParentKey, he⟩
            · exact ih _ e he
    · simp only [flushTracker] at he
      simp at he
      exact ih m e he

theorem flushTracker_lookup_none (entries : TrackerList) (m : TileMap) (k : TileKey)
    (h : lookupTile m k = none) : lookupTile (flushTracker entries m).1 k = none := by
  induction entries generalizing m with
  | nil => exact h
  | cons entry rest ih =>
    obtain ⟨k1, b⟩ := entry
    cases b
    · simp only [flushTracker]
      cases hl : lookupTile m k1 with
      | none =>
        simp only [Bool.false_eq_true, if_neg, if_false]
        exact ih m h
      | some tile =>
        by_cases hx : tile.doNotExpire
        · simp only [Bool.false_eq_true, if_neg, if_false, hx, if_true]
          exact ih m h
        · simp only [Bool.false_eq_true, if_neg, if_false, hx]
          cases hp : lookupTile m tile.key.createParentKey
          · simp only []
            exact ih _ (lookupTile_eraseTile_none m tile.key k h)
          · simp only []
            exact ih _ (lookupTile_eraseTile_none _ tile.key k
              (lookupTile_setTile_none m tile.key.createParentKey k _ h))
    · simp only [flushTracker, if_true]
      exact ih m h

/-- Along a flush, every node stored under key k stays expirable and stays
stored under its own key: the only in-place edit flush performs is
unloadChildren, which touches neither field. -/
def ExpirableAt (k : TileKey) (m : TileMap) : Prop :=
  ∀ u, lookupTile m k = some u → u.doNotExpire = false ∧ u.key = k

theorem ExpirableAt_setTile_unload (k pk : TileKey) (m : TileMap) (p : TerrainTileNode)
    (hm : ExpirableAt k m) (hp : lookupTile m pk = some p) :
    ExpirableAt k (setTile m pk p.unloadChildren) := by
  intro u hu
  by_cases hk : pk = k
  · subst hk
    rw [lookupTile_setTile_self m pk _ p hp] at hu
    cases hu
    rw [unloadChildren_doNotExpire, unloadChildren_key]
    exact hm p hp
  · rw [lookupTile_setTile_ne m pk k _ (fun hh => hk hh.symm)] at hu
    exact hm u hu

theorem ExpirableAt_eraseTile (k k2 : TileKey) (m : TileMap) (hm : ExpirableAt k m) :
    ExpirableAt k (eraseTile m k2) := by
  intro u hu
  by_cases hk : k = k2
  · subst hk
    rw [lookupTile_eraseTile_self] at hu
    cases hu
  · rw [lookupTile_eraseTile_ne m k2 k hk] at hu
    exact hm u hu

theorem flushTracker_erases (entries : TrackerList) (m : TileMap) (k : TileKey)
    (hk : ExpirableAt k m) (hmem : (k, false) ∈ entries) :
    lookupTile (flushTracker entries m).1 k = none := by
  induction entries generalizing m with
  | nil => cases hmem
  | cons entry rest ih =>
    obtain ⟨k1, b⟩ := entry
    cases b
    · simp only [flushTracker]
      cases hl : lookupTile m k1 with
      | none =>
        simp only [Bool.false_eq_true, if_neg, if_false]
        by_cases hk1 : k1 = k
        · rw [hk1] at hl
          exact flushTracker_lookup_none rest m k hl
        · have hmem2 : (k, false) ∈ rest := by
            rcases List.mem_cons.mp hmem with hh | hh
            · cases hh; exact absurd rfl hk1
            · exact hh
          exact ih m hk hmem2
      | some tile =>
        by_cases hx : tile.doNotExpire
        · simp only [Bool.false_eq_true, if_neg, if_false, hx, if_true]
          by_cases hk1 : k1 = k
          · rw [hk1] at hl
            exact absurd (hk tile hl).1 (by simp [hx])
          · have hmem2 : (k, false) ∈ rest := by
              rcases List.mem_cons.mp hmem with hh | hh
              · cases hh; exact absurd rfl hk1
              · exact hh
            exact ih m hk hmem2
        · simp only [Bool.false_eq_true, if_neg, if_false, hx]
          by_cases hk1 : k1 = k
          · rw [hk1] at hl
            have hkey : tile.key = k := (hk tile hl).2
            cases hp : lookupTile m tile.key.createParentKey
            · simp only []
              exact flushTracker_lookup_none rest _ k
                (hkey ▸ lookupTile_eraseTile_self m tile.key)
            · simp only []
              refine flushTracker_lookup_none rest _ k ?_
              rw [hkey]
              exact lookupTile_eraseTile_self _ k
          · have hmem2 : (k, false) ∈ rest := by
              rcases List.mem_cons.mp hmem with hh | hh
              · cases hh; exact absurd rfl hk1
              · exact hh
            cases hp : lookupTile m tile.key.createParentKey
            · simp only []
              exact ih _ (ExpirableAt_eraseTile k tile.key m hk) hmem2
            · simp only []
              exact ih _ (ExpirableAt_eraseTile k tile.key _
                (ExpirableAt_setTile_unload k tile.key.createParentKey m _ hk hp)) hmem2
    · simp only [flushTracker, if_true]
      have hmem2 : (k, false) ∈ rest := by
        rcases List.mem_cons.mp hmem with hh | hh
        · cases hh
        · exact hh
      exact ih m hk hmem2

theorem flushTracker_keeps_doNotExpire (entries : TrackerList) (m : TileMap)
    (k : TileKey) (u : TerrainTileNode) (hwf : TileMapWF m)
    (hu : lookupTile m k = some u) (hx : u.doNotExpire = true) :
    ∃ v, lookupTile (flushTracker entries m).1 k = some v ∧ v.doNotExpire = true := by
  induction entries generalizing m u with
  | nil => exact ⟨u, hu, hx⟩
  | cons entry rest ih =>
    obtain ⟨k1, b⟩ := entry
    cases b
    · simp only [flushTracker]
      cases hl : lookupTile m k1 with
      | none =>
        simp only [Bool.false_eq_true, if_neg, if_false]
        exact ih m u hwf hu hx
      | some tile =>
        by_cases hd : tile.doNotExpire
        · simp only [Bool.false_eq_true, if_neg, if_false, hd, if_true]
          exact ih m u hwf hu hx
        · simp only [Bool.false_eq_true, if_neg, if_false, hd]
          have htk : tile.key = k1 := hwf k1 tile hl
          have htkne : k ≠ tile.key := by
            intro hh
            rw [htk] at hh
            rw [← hh] at hl
            rw [hl] at hu
            cases hu
            exact absurd hx (by simp [hd])
          cases hp : lookupTile m tile.key.createParentKey with
          | none =>
            simp only []
            refine ih _ u (TileMapWF_eraseTile m tile.key hwf) ?_ hx
            rw [lookupTile_eraseTile_ne m tile.key k htkne]
            exact hu
          | some parent =>
            simp only []
            have hwf2 : TileMapWF (setTile m tile.key.createParentKey parent.unloadChildren) := by
              refine TileMapWF_setTile m _ _ hwf ?_
              rw [unloadChildren_key]
              exact hwf _ parent hp
            by_cases hpk : tile.key.createParentKey = k
            · have hpu : parent = u := by
                rw [hpk] at hp
                exact Option.some.inj (hp.symm.trans hu)
              refine ih _ u.unloadChildren (TileMapWF_eraseTile _ tile.key hwf2) ?_
                (by rw [unloadChildren_doNotExpire]; exact hx)
              rw [lookupTile_eraseTile_ne _ tile.key k htkne]
              rw [← hpu]
              rw [hpk]
              exact lookupTile_setTile_self m k _ parent (hpk ▸ hp)
            · refine ih _ u (TileMapWF_eraseTile _ tile.key hwf2) ?_ hx
              rw [lookupTile_eraseTile_ne _ tile.key k htkne]
              rw [lookupTile_setTile_ne m _ k _ (fun hh => hpk hh.symm)]
              exact hu
    · simp only [flushTracker, if_true]
      exact ih m u hwf hu hx

theorem flushTracker_keeps_touched (P : TerrainTileNode → Prop)
    (hP : ∀ v, P v → P v.unloadChildren)
    (entries : TrackerList) (m : TileMap) (k : TileKey) (u : TerrainTileNode)
    (hwf : TileMapWF m) (hu : lookupTile m k = some u) (hPu : P u)
    (htc : ∀ b, (k, b) ∈ entries → b = true) :
    ∃ v, lookupTile (flushTracker entries m).1 k = some v ∧ P v := by
  induction entries generalizing m u with
  | nil => exact ⟨u, hu, hPu⟩
  | cons entry rest ih =>
    obtain ⟨k1, b⟩ := entry
    have htc2 : ∀ b2, (k, b2) ∈ rest → b2 = true :=
      fun b2 hb2 => htc b2 (List.mem_cons_of_mem _ hb2)
    cases b
    · have hk1 : k1 ≠ k := by
        intro hh
        exact absurd (htc false (by rw [hh]; exact List.mem_cons_self _ _)) (by simp)
      simp only [flushTracker]
      cases hl : lookupTile m k1 with
      | none =>
        simp only [Bool.false_eq_true, if_neg, if_false]
        exact ih m u hwf hu hPu htc2
      | some tile =>
        by_cases hd : tile.doNotExpire
        · simp only [Bool.false_eq_true, if_neg, if_false, hd, if_true]
          exact ih m u hwf hu hPu htc2
        · simp only [Bool.false_eq_true, if_neg, if_false, hd]
          have htk : tile.key = k1 := hwf k1 tile hl
          have htkne : k ≠ tile.key := by
            intro hh
            rw [htk] at hh
            exact hk1 hh.symm
          cases hp : lookupTile m tile.key.createParentKey with
          | none =>
            simp only []
            refine ih _ u (TileMapWF_eraseTile m tile.key hwf) ?_ hPu htc2
            rw [lookupTile_eraseTile_ne m tile.key k htkne]
            exact hu
          | some parent =>
            simp only []
            have hwf2 : TileMapWF (setTile m tile.key.createParentKey parent.unloadChildren) := by
              refine TileMapWF_setTile m _ _ hwf ?_
              rw [unloadChildren_key]
              exact hwf _ parent hp
            by_cases hpk : tile.key.createParentKey = k
            · have hpu : parent = u := by
                rw [hpk] at hp
                exact Option.some.inj (hp.symm.trans hu)
              refine ih _ u.unloadChildren (TileMapWF_eraseTile _ tile.key hwf2) ?_
                (hP u hPu) htc2
              rw [lookupTile_eraseTile_ne _ tile.key k htkne]
              rw [← hpu]
              rw [hpk]
              exact lookupTile_setTile_self m k _ parent (hpk ▸ hp)
            · refine ih _ u (TileMapWF_eraseTile _ tile.key hwf2) ?_ hPu htc2
              rw [lookupTile_eraseTile_ne _ tile.key k htkne]
              rw [lookupTile_setTile_ne m _ k _ (fun hh => hpk hh.symm)]
              exact hu
    · simp only [flushTracker, if_true]
      exact ih m u hwf hu hPu htc2

theorem flushTracker_unload_event (entries : TrackerList) (m : TileMap)
    (k : TileKey) (t p : TerrainTileNode) (hwf : TileMapWF m)
    (ht : lookupTile m k = some t) (htx : t.doNotExpire = false)
    (hp : lookupTile m k.createParentKey = some p) (hpx : p.doNotExpire = true)
    (hmem : (k, false) ∈ entries) :
    DispatchEvent.unloadChildren k.createParentKey ∈ (flushTracker entries m).2.2 := by
  by_cases hkk : k.createParentKey = k
  · rw [hkk] at hp
    have : p = t := Option.some.inj (hp.symm.trans ht)
    rw [this] at hpx
    rw [htx] at hpx
    cases hpx
  · induction entries generalizing m t p with
    | nil => cases hmem
    | cons entry rest ih =>
      obtain ⟨k1, b⟩ := entry
      cases b
      · simp only [flushTracker]
        cases hl : lookupTile m k1 with
        | none =>
          simp only [Bool.false_eq_true, if_neg, if_false]
          have hk1 : k1 ≠ k := by
            intro hh
            rw [hh] at hl
            rw [hl] at ht
            cases ht
          have hmem2 : (k, false) ∈ rest := by
            rcases List.mem_cons.mp hmem with hh | hh
            · cases hh; exact absurd rfl hk1
            · exact hh
          exact ih m t p hwf ht htx hp hpx hmem2
        | some tile =>
          by_cases hd : tile.doNotExpire
          · simp only [Bool.false_eq_true, if_neg, if_false, hd, if_true]
            have hk1 : k1 ≠ k := by
              intro hh
              rw [hh] at hl
              have : tile = t := Option.some.inj (hl.symm.trans ht)
              rw [this] at hd
              rw [htx] at hd
              cases hd
            have hmem2 : (k, false) ∈ rest := by
              rcases List.mem_cons.mp hmem with hh | hh
              · cases hh; exact absurd rfl hk1
              · exact hh
            exact ih m t p hwf ht htx hp hpx hmem2
          · simp only [Bool.false_eq_true, if_neg, if_false, hd]
            have htk : tile.key = k1 := hwf k1 tile hl
            by_cases hk1 : k1 = k
            · rw [hk1] at hl
              have htt : tile = t := Option.some.inj (hl.symm.trans ht)
              have hkey : tile.key = k := by rw [htk, hk1]
              rw [hkey]
              rw [hp]
              simp only []
              simp [List.mem_append]
            · have hmem2 : (k, false) ∈ rest := by
                rcases List.mem_cons.mp hmem with hh | hh
                · cases hh; exact absurd rfl hk1
                · exact hh
              have htkne : k ≠ tile.key := by
                intro hh
                rw [htk] at hh
                exact hk1 hh.symm
              have htknp : k.createParentKey ≠ tile.key := by
                intro hh
                rw [htk] at hh
                rw [hh] at hp
                have hpt : tile = p := Option.some.inj (hl.symm.trans hp)
                rw [hpt] at hd
                rw [hpx] at hd
                exact hd rfl
              cases hp2 : lookupTile m tile.key.createParentKey with
              | none =>
                simp only []
                refine ih _ t p (TileMapWF_eraseTile m tile.key hwf) ?_ htx ?_ hpx hmem2
                · rw [lookupTile_eraseTile_ne m tile.key k htkne]
                  exact ht
                · rw [lookupTile_eraseTile_ne m tile.key k.createParentKey htknp]
                  exact hp
              | some parent2 =>
                simp only []
                have hwf2 : TileMapWF
                    (setTile m tile.key.createParentKey parent2.unloadChildren) := by
                  refine TileMapWF_setTile m _ _ hwf ?_
                  rw [unloadChildren_key]
                  exact hwf _ parent2 hp2
                refine List.mem_append_right _ ?_
                by_cases hpk2k : tile.key.createParentKey = k
                · have hpar : parent2 = t := by
                    rw [hpk2k] at hp2
                    exact Option.some.inj (hp2.symm.trans ht)
                  refine ih _ t.unloadChildren p (TileMapWF_eraseTile _ tile.key hwf2) ?_
                    (by rw [unloadChildren_doNotExpire]; exact htx) ?_ hpx hmem2
                  · rw [lookupTile_eraseTile_ne _ tile.key k htkne]
                    rw [← hpar]
                    rw [hpk2k]
                    exact lookupTile_setTile_self m k _ parent2 (hpk2k ▸ hp2)
                  · rw [lookupTile_eraseTile_ne _ tile.key k.createParentKey htknp]
                    have hne2 : k.createParentKey ≠ tile.key.createParentKey := by
                      rw [hpk2k]
                      exact hkk
                    rw [lookupTile_setTile_ne m _ k.createParentKey _ hne2]
                    exact hp
                · by_cases hpk2p : tile.key.createParentKey = k.createParentKey
                  · have hpar : parent2 = p := by
                      rw [hpk2p] at hp2
                      exact Option.some.inj (hp2.symm.trans hp)
                    refine ih _ t p.unloadChildren (TileMapWF_eraseTile _ tile.key hwf2) ?_
                      htx ?_ (by rw [unloadChildren_doNotExpire]; exact hpx) hmem2
                    · rw [lookupTile_eraseTile_ne _ tile.key k htkne]
                      rw [lookupTile_setTile_ne m _ k _ (fun hh => hpk2k hh.symm)]
                      exact ht
                    · rw [lookupTile_eraseTile_ne _ tile.key k.createParentKey htknp]
                      rw [← hpar]
                      rw [hpk2p]
                      exact lookupTile_setTile_self m k.createParentKey _ parent2
                        (hpk2p ▸ hp2)
                  · refine ih _ t p (TileMapWF_eraseTile _ tile.key hwf2) ?_ htx ?_
                      hpx hmem2
                    · rw [lookupTile_eraseTile_ne _ tile.key k htkne]
                      rw [lookupTile_setTile_ne m _ k _ (fun hh => hpk2k hh.symm)]
                      exact ht
                    · rw [lookupTile_eraseTile_ne _ tile.key k.createParentKey htknp]
                      rw [lookupTile_setTile_ne m _ k.createParentKey _
                        (fun hh => hpk2p hh.symm)]
                      exact hp
      · simp only [flushTracker, if_true]
        have hmem2 : (k, false) ∈ rest := by
          rcases List.mem_cons.mp hmem with hh | hh
          · cases hh
          · exact hh
        exact ih m t p hwf ht htx hp hpx hmem2

theorem requestLoadChildren_cases (t : TerrainTileNode) :
    (requestLoadChildren t = (t, false) ∧ t.childrenLoader.isEmpty = false) ∨
    (requestLoadChildren t = ({ t with childrenLoader := SlotState.working }, true) ∧
      t.childrenLoader.isEmpty = true) := by
  unfold requestLoadChildren
  cases hc : t.childrenLoader.isEmpty
  · exact Or.inl ⟨by simp, rfl⟩
  · exact Or.inr ⟨by simp, rfl⟩

theorem requestLoadData_cases (t : TerrainTileNode) :
    (requestLoadData t = (t, false) ∧
      (t.dataLoader.isWorking || t.dataLoader.isAvailable) = true) ∨
    (requestLoadData t = ({ t with dataLoader := SlotState.working }, true) ∧
      (t.dataLoader.isWorking || t.dataLoader.isAvailable) = false) := by
  unfold requestLoadData
  cases hc : t.dataLoader.isWorking || t.dataLoader.isAvailable
  · exact Or.inr ⟨by simp, rfl⟩
  · exact Or.inl ⟨by simp, rfl⟩

theorem requestMergeData_cases (t : TerrainTileNode) :
    (requestMergeData t = (t, false) ∧
      (t.dataMerger.isWorking || t.dataMerger.isAvailable) = true) ∨
    (requestMergeData t = ({ t with dataMerger := SlotState.working }, true) ∧
      (t.dataMerger.isWorking || t.dataMerger.isAvailable) = false) := by
  unfold requestMergeData
  cases hc : t.dataMerger.isWorking || t.dataMerger.isAvailable
  · exact Or.inr ⟨by simp, rfl⟩
  · exact Or.inl ⟨by simp, rfl⟩

theorem update_tiles_def (r : Registry) : (update r).1.tiles =
    (flushTracker r.tracker
      (processQueue requestMergeData id DispatchEvent.mergeData r.mergeData
        (processQueue requestLoadData id DispatchEvent.loadData r.loadData
          (processQueue requestLoadChildren (fun t => { t with needsChildren := false })
            DispatchEvent.loadChildren r.loadChildren
            (processQueue (fun t => (t, true)) id DispatchEvent.updateTile
              r.updateData r.tiles).1).1).1).1).1 := rfl

theorem update_events_def (r : Registry) : (update r).2 =
    (processQueue (fun t => (t, true)) id DispatchEvent.updateTile
        r.updateData r.tiles).2 ++
    (processQueue requestLoadChildren (fun t => { t with needsChildren := false })
        DispatchEvent.loadChildren r.loadChildren
        (processQueue (fun t => (t, true)) id DispatchEvent.updateTile
          r.updateData r.tiles).1).2 ++
    (processQueue requestLoadData id DispatchEvent.loadData r.loadData
        (processQueue requestLoadChildren (fun t => { t with needsChildren := false })
          DispatchEvent.loadChildren r.loadChildren
          (processQueue (fun t => (t, true)) id DispatchEvent.updateTile
            r.updateData r.tiles).1).1).2 ++
    (processQueue requestMergeData id DispatchEvent.mergeData r.mergeData
        (processQueue requestLoadData id DispatchEvent.loadData r.loadData
          (processQueue requestLoadChildren (fun t => { t with needsChildren := false })
            DispatchEvent.loadChildren r.loadChildren
            (processQueue (fun t => (t, true)) id DispatchEvent.updateTile
              r.updateData r.tiles).1).1).1).2 ++
    (flushTracker r.tracker
        (processQueue requestMergeData id DispatchEvent.mergeData r.mergeData
          (processQueue requestLoadData id DispatchEvent.loadData r.loadData
            (processQueue requestLoadChildren (fun t => { t with needsChildren := false })
              DispatchEvent.loadChildren r.loadChildren
              (processQueue (fun t => (t, true)) id DispatchEvent.updateTile
                r.updateData r.tiles).1).1).1).1).2.2 := rfl

theorem update_event_cases (r : Registry) (e : DispatchEvent)
    (he : e ∈ (update r).2) :
    (∃ k, k ∈ r.updateData ∧ e = DispatchEvent.updateTile k) ∨
    (∃ k, k ∈ r.loadChildren ∧ e = DispatchEvent.loadChildren k) ∨
    (∃ k, k ∈ r.loadData ∧ e = DispatchEvent.loadData k) ∨
    (∃ k, k ∈ r.mergeData ∧ e = DispatchEvent.mergeData k) ∨
    (∃ k, e = DispatchEvent.unloadChildren k) := by
  rw [update_events_def] at he
  simp only [List.mem_append] at he
  rcases he with ((((he | he) | he) | he) | he)
  · obtain ⟨k, hk, hek⟩ := processQueue_events_shape _ _ _ _ _ e he
    exact Or.inl ⟨k, hk, hek⟩
  · obtain ⟨k, hk, hek⟩ := processQueue_events_shape _ _ _ _ _ e he
    exact Or.inr (Or.inl ⟨k, hk, hek⟩)
  · obtain ⟨k, hk, hek⟩ := processQueue_events_shape _ _ _ _ _ e he
    exact Or.inr (Or.inr (Or.inl ⟨k, hk, hek⟩))
  · obtain ⟨k, hk, hek⟩ := processQueue_events_shape _ _ _ _ _ e he
    exact Or.inr (Or.inr (Or.inr (Or.inl ⟨k, hk, hek⟩)))
  · obtain ⟨k, hek⟩ := flushTracker_events_shape _ _ e he
    exact Or.inr (Or.inr (Or.inr (Or.inr ⟨k, hek⟩)))

/-- Registry with no tiles, an empty tracker and empty queues: the state
releaseAll leaves behind (TileNodeRegistry.cpp lines 39-52). -/
def emptyRegistry : Registry :=
  { tiles := [], tracker := [], loadChildren := [], loadElevation := [],
    mergeElevation := [], loadData := [], mergeData := [], updateData := [] }

/-- Concrete key used by the witnesses: the level 1 cell (1, 0, 0). -/
def exKey : TileKey := ⟨1, 0, 0⟩

/-- Concrete freshly created tile at exKey, with no parent. -/
def exTile : TerrainTileNode := mkFreshTile exKey none

/-- Concrete registry tracking exTile with a pending data-load request. -/
def exRegLoad : Registry :=
  { emptyRegistry with
      tiles := [(exKey, exTile)]
      tracker := [(exKey, true)]
      loadData := [exKey] }

/-- C1: progressive gating. ping enqueues a tile on the loadData queue
exactly when the parent data merge is available (or the tile has no parent)
and its data loader slot is empty, and on the loadElevation queue exactly
when the parent elevation merge is available (or the tile has no parent) and
its elevation loader slot is empty; update dispatches data loads only for
keys that were enqueued on loadData and dispatches no elevation load at
all. -/
theorem progressive_gating_c1 (r : Registry) (tile : TerrainTileNode)
    (parent : Option TerrainTileNode) (r2 : Registry) (k : TileKey) :
    ((ping r tile parent).loadData = r.loadData ++
      (if parentHasData parent && tile.dataLoader.isEmpty then [tile.key] else [])) ∧
    ((ping r tile parent).loadElevation = r.loadElevation ++
      (if parentHasElevation parent && tile.elevationLoader.isEmpty then [tile.key] else [])) ∧
    (DispatchEvent.loadData k ∈ (update r2).2 → k ∈ r2.loadData) ∧
    (DispatchEvent.loadElevation k ∉ (update r2).2) := by
  refine ⟨ping_loadData_eq r tile parent, ping_loadElevation_eq r tile parent, ?_, ?_⟩
  · intro he
    rcases update_event_cases r2 _ he with ⟨k2, hk2, hek⟩ | ⟨k2, hk2, hek⟩ |
      ⟨k2, hk2, hek⟩ | ⟨k2, hk2, hek⟩ | ⟨k2, hek⟩
    · simp at hek
    · simp at hek
    · simp at hek
      exact hek ▸ hk2
    · simp at hek
    · simp at hek
  · intro he
    rcases update_event_cases r2 _ he with ⟨k2, hk2, hek⟩ | ⟨k2, hk2, hek⟩ |
      ⟨k2, hk2, hek⟩ | ⟨k2, hk2, hek⟩ | ⟨k2, hek⟩ <;> simp at hek

/-- C1 witness: a concrete registry with a queued data load for a registered
tile; update dispatches it and the theorem recovers membership on the
queue. -/
theorem progressive_gating_c1_witness :
    DispatchEvent.loadData exKey ∈ (update exRegLoad).2 ∧ exKey ∈ exRegLoad.loadData :=
  ⟨by decide,
   (progressive_gating_c1 emptyRegistry exTile none exRegLoad exKey).2.2.1 (by decide)⟩

/-- Concrete tile at exKey whose data merge is available while its elevation
merger slot is still empty, with needsChildren set. -/
def exTileDataOnly : TerrainTileNode :=
  { mkFreshTile exKey none with dataMerger := SlotState.available }

/-- C2 counterexample: the claim says a tile is pushed onto loadChildren only
when both its elevation merge and its data merge slots are available, but
ping pushes exTileDataOnly although its elevationMerger slot is empty — in
the default combined build only the data merge is consulted. -/
theorem children_gate_c2_counterexample :
    (ping emptyRegistry exTileDataOnly none).loadChildren = [exKey] ∧
    exTileDataOnly.elevationMerger.isAvailable = false ∧
    exTileDataOnly.needsChildren = true := by decide

/-- C2 (amended): in the default combined build, ping treats elevation-merge
availability as identical to data-merge availability (the elevationMerger
slot is not consulted), so a tile is pushed onto loadChildren exactly when
its data merge is available and needsChildren is set; update dispatches
child creation only for keys on that queue. -/
theorem children_gate_c2_amended (r : Registry) (tile : TerrainTileNode)
    (parent : Option TerrainTileNode) (r2 : Registry) (k : TileKey) :
    ((ping r tile parent).loadChildren = r.loadChildren ++
      (if tile.dataMerger.isAvailable && tile.needsChildren then [tile.key] else [])) ∧
    (DispatchEvent.loadChildren k ∈ (update r2).2 → k ∈ r2.loadChildren) := by
  refine ⟨ping_loadChildren_eq r tile parent, ?_⟩
  intro he
  rcases update_event_cases r2 _ he with ⟨k2, hk2, hek⟩ | ⟨k2, hk2, hek⟩ |
    ⟨k2, hk2, hek⟩ | ⟨k2, hk2, hek⟩ | ⟨k2, hek⟩
  · simp at hek
  · simp at hek
    exact hek ▸ hk2
  · simp at hek
  · simp at hek
  · simp at hek

/-- Concrete registry with a queued child-creation request for a tile whose
data merge is available. -/
def exRegChildren : Registry :=
  { emptyRegistry with
      tiles := [(exKey, exTileDataOnly)]
      tracker := [(exKey, true)]
      loadChildren := [exKey] }

/-- C2 witness: update on a concrete registry dispatches the queued child
creation, and the amended theorem recovers membership on the queue. -/
theorem children_gate_c2_witness :
    DispatchEvent.loadChildren exKey ∈ (update exRegChildren).2 ∧
    exKey ∈ exRegChildren.loadChildren :=
  ⟨by decide,
   (children_gate_c2_amended emptyRegistry exTileDataOnly none exRegChildren exKey).2
     (by decide)⟩

/-- Concrete registry holding the root tile with queued elevation work, as
produced by pinging a fresh root: ping pushes the root key onto both
loadElevation (parent gate vacuous, loader empty) and loadData; here the
elevation queues already hold the key when update runs. -/
def exRegElevation : Registry :=
  { emptyRegistry with
      tiles := [(exKey, exTile)]
      tracker := [(exKey, true)]
      loadElevation := [exKey]
      mergeElevation := [exKey] }

/-- C5: the claim says every update call drains all six pending-work queues,
but in the default combined build the loadElevation and mergeElevation
queues are neither processed nor cleared (the draining code is compiled out
with LOAD_ELEVATION_SEPARATELY while ping still pushes into both queues), so
they survive update unchanged while the other four queues are drained. -/
theorem queue_drain_c5_bug :
    (update exRegElevation).1.loadElevation = [exKey] ∧
    (update exRegElevation).1.mergeElevation = [exKey] ∧
    (update exRegElevation).1.updateData = [] ∧
    (update exRegElevation).1.loadChildren = [] ∧
    (update exRegElevation).1.loadData = [] ∧
    (update exRegElevation).1.mergeData = [] ∧
    (ping exRegElevation exTile none).loadElevation = [exKey, exKey] := by decide

/-- C7 counterexample: on a live tile with sqrt(lastTraversalRange) = 1 and
level of detail 1 the elevation-load priority evaluates to -(9/10), not the
-1 the spec formula -(sqrt(range) * lod) gives: the elevation loader carries
an extra 0.9 factor. -/
theorem load_priority_c7_counterexample :
    loadElevationPriority true 1 1 ≠ specLoadPriority true 1 1 ∧
    loadElevationPriority true 1 1 = -(9 / 10 : ℚ) ∧
    specLoadPriority true 1 1 = -1 := by
  refine ⟨?_, ?_, ?_⟩ <;> norm_num [loadElevationPriority, specLoadPriority]

/-- C7 (amended): the child-creation and data-load jobs carry exactly the
spec priority -(sqrt(lastTraversalRange) * levelOfDetail); the elevation-load
job carries 0.9 times that value (an extra 0.9 factor between the square
root and the level of detail); each of the three evaluates to 0 once the
tile has been destroyed (the weak reference fails). -/
theorem load_priority_c7_amended (s lod : ℚ) :
    loadChildrenPriority true s lod = specLoadPriority true s lod ∧
    loadDataPriority true s lod = specLoadPriority true s lod ∧
    loadElevationPriority true s lod = (9 / 10) * specLoadPriority true s lod ∧
    loadChildrenPriority false s lod = 0 ∧
    loadDataPriority false s lod = 0 ∧
    loadElevationPriority false s lod = 0 := by
  refine ⟨rfl, rfl, ?_, rfl, rfl, rfl⟩
  simp only [loadElevationPriority, specLoadPriority, if_pos]
  ring

/-- C10: createTile returns a new node carrying the requested key but never
inserts it into the key→node map: the registry is returned unchanged and
getTile reads exactly what it read before; a key that was never pinged (and
one that was evicted, leaving the map) reads back null without modifying the
registry; the tile becomes visible through getTile exactly when it is first
pinged. -/
theorem createTile_registration_c10 (r : Registry) (key k2 : TileKey)
    (parent : Option TerrainTileNode) (t : TerrainTileNode) :
    ((createTile r key parent).1 = r) ∧
    ((createTile r key parent).2.key = key) ∧
    (getTile (createTile r key parent).1 k2 = getTile r k2) ∧
    (lookupTile r.tiles t.key = none → getTile (ping r t parent) t.key = some t) ∧
    (lookupTile r.tiles k2 = none → getTile r k2 = none) := by
  refine ⟨rfl, rfl, rfl, ?_, fun h => h⟩
  intro h
  unfold getTile
  rw [ping_tiles_of_absent r t parent h]
  simp [lookupTile]

/-- C10 witness: pinging a fresh tile in the empty registry makes it visible
through getTile. -/
theorem createTile_registration_c10_witness :
    lookupTile emptyRegistry.tiles exTile.key = none ∧
    getTile (ping emptyRegistry exTile none) exTile.key = some exTile :=
  ⟨by decide,
   (createTile_registration_c10 emptyRegistry exKey exTile.key none exTile).2.2.2.1
     (by decide)⟩

theorem createChildrenLoop_spec (pk : TileKey) (c : Nat → Bool)
    (b : TileKey → Option TerrainTileNode) :
    ∀ (n q : Nat) (acc ts : List TerrainTileNode),
      createChildrenLoop pk c b n q acc = some ts →
      ts.length = acc.length + n ∧
      (∀ j, j < acc.length → ts.get? j = acc.get? j) ∧
      (∀ i, i < n → c (q + i) = false ∧
        b (pk.createChildKey (q + i)) = ts.get? (acc.length + i)) := by
  intro n
  induction n with
  | zero =>
    intro q acc ts h
    cases h
    exact ⟨rfl, fun j hj => rfl, fun i hi => absurd hi (by omega)⟩
  | succ n ih =>
    intro q acc ts h
    unfold createChildrenLoop at h
    by_cases hc : c q = true
    · rw [if_pos hc] at h
      cases h
    · have hcf : c q = false := by
        cases hcv : c q
        · rfl
        · exact absurd hcv hc
      rw [if_neg hc] at h
      cases hb : b (pk.createChildKey q) with
      | none => rw [hb] at h; cases h
      | some tile =>
        rw [hb] at h
        obtain ⟨hlen, hpre, hrest⟩ := ih (q + 1) (acc ++ [tile]) ts h
        have hacc : (acc ++ [tile]).length = acc.length + 1 := by simp
        refine ⟨?_, ?_, ?_⟩
        · rw [hlen, hacc]
          omega
        · intro j hj
          have hj2 : j < (acc ++ [tile]).length := by rw [hacc]; omega
          rw [hpre j hj2]
          exact List.get?_append hj
        · intro i hi
          cases i with
          | zero =>
            refine ⟨by simpa using hcf, ?_⟩
            have hmem : ts.get? acc.length = some tile := by
              have hj2 : acc.length < (acc ++ [tile]).length := by rw [hacc]; omega
              rw [hpre acc.length hj2]
              exact List.get?_concat_length acc tile
            rw [Nat.add_zero, Nat.add_zero, hmem, hb]
          | succ i2 =>
            have hlt : i2 < n := by omega
            obtain ⟨hc2, hb2⟩ := hrest i2 hlt
            have ha1 : q + 1 + i2 = q + (i2 + 1) := by omega
            have ha2 : (acc ++ [tile]).length + i2 = acc.length + (i2 + 1) := by
              rw [hacc]; omega
            rw [ha1] at hc2
            rw [ha1, ha2] at hb2
            exact ⟨hc2, hb2⟩

/-- C9: the child-creation job is all-or-nothing. Any non-null result is a
quad group of exactly four children, one per quadrant in order, each produced
by a successful createTile with no cancellation observed; a dead parent
reference yields the null result, and cancellation observed before the first
quadrant aborts the whole batch. -/
theorem children_batch_c9 (pk : TileKey) (c : Nat → Bool)
    (b : TileKey → Option TerrainTileNode) :
    (∀ ts, createChildrenJob (some pk) c b = some ts →
      ts.length = 4 ∧
      ∀ q, q < 4 → c q = false ∧ b (pk.createChildKey q) = ts.get? q) ∧
    (createChildrenJob none c b = none) ∧
    (c 0 = true → createChildrenJob (some pk) c b = none) := by
  refine ⟨?_, rfl, ?_⟩
  · intro ts h
    obtain ⟨hlen, hpre, hrest⟩ := createChildrenLoop_spec pk c b 4 0 [] ts h
    refine ⟨by simpa using hlen, ?_⟩
    intro q hq
    simpa using hrest q hq
  · intro hc
    simp [createChildrenJob, createChildrenLoop, hc]

/-- Cancellation flag that never fires, for the C9 witness. -/
def exNoCancel : Nat → Bool := fun _ => false

/-- Child factory that always succeeds, for the C9 witness. -/
def exBuild : TileKey → Option TerrainTileNode := fun k => some (mkFreshTile k none)

/-- The quad group the C9 witness expects. -/
def exQuad : List TerrainTileNode :=
  [mkFreshTile (exKey.createChildKey 0) none,
   mkFreshTile (exKey.createChildKey 1) none,
   mkFreshTile (exKey.createChildKey 2) none,
   mkFreshTile (exKey.createChildKey 3) none]

/-- C9 witness: with a live parent, no cancellation and a child factory that
always succeeds, the job yields the full quad group of four children. -/
theorem children_batch_c9_witness :
    createChildrenJob (some exKey) exNoCancel exBuild = some exQuad ∧
    exQuad.length = 4 :=
  ⟨by decide,
   ((children_batch_c9 exKey exNoCancel exBuild).1 exQuad (by decide)).1⟩

theorem requestLoadChildren_snd_eq (t : TerrainTileNode) :
    (requestLoadChildren t).2 = t.childrenLoader.isEmpty := by
  unfold requestLoadChildren
  cases hc : t.childrenLoader.isEmpty <;> simp [hc]

theorem requestLoadChildren_fst_childrenLoader (t : TerrainTileNode) :
    ((requestLoadChildren t).1).childrenLoader =
      if t.childrenLoader.isEmpty then SlotState.working else t.childrenLoader := by
  unfold requestLoadChildren
  cases hc : t.childrenLoader.isEmpty <;> simp [hc]

theorem requestLoadData_snd_eq (t : TerrainTileNode) :
    (requestLoadData t).2 = !(t.dataLoader.isWorking || t.dataLoader.isAvailable) := by
  unfold requestLoadData
  cases hc : t.dataLoader.isWorking || t.dataLoader.isAvailable <;> simp [hc]

theorem requestLoadData_fst_dataLoader (t : TerrainTileNode) :
    ((requestLoadData t).1).dataLoader =
      if t.dataLoader.isWorking || t.dataLoader.isAvailable then t.dataLoader
      else SlotState.working := by
  unfold requestLoadData
  cases hc : t.dataLoader.isWorking || t.dataLoader.isAvailable <;> simp [hc]

theorem requestMergeData_snd_eq (t : TerrainTileNode) :
    (requestMergeData t).2 = !(t.dataMerger.isWorking || t.dataMerger.isAvailable) := by
  unfold requestMergeData
  cases hc : t.dataMerger.isWorking || t.dataMerger.isAvailable <;> simp [hc]

theorem requestMergeData_fst_dataMerger (t : TerrainTileNode) :
    ((requestMergeData t).1).dataMerger =
      if t.dataMerger.isWorking || t.dataMerger.isAvailable then t.dataMerger
      else SlotState.working := by
  unfold requestMergeData
  cases hc : t.dataMerger.isWorking || t.dataMerger.isAvailable <;> simp [hc]

theorem processQueue_count_zero_ne (request : TerrainTileNode → TerrainTileNode × Bool)
    (post : TerrainTileNode → TerrainTileNode) (ev : TileKey → DispatchEvent)
    (queue : List TileKey) (m : TileMap) (x : DispatchEvent)
    (h : ∀ k, ev k ≠ x) : ((processQueue request post ev queue m).2).count x = 0 := by
  rw [List.count_eq_zero]
  intro hx
  obtain ⟨k, _, hek⟩ := processQueue_events_shape request post ev queue m x hx
  exact h k hek.symm

theorem flushTracker_count_zero_ne (entries : TrackerList) (m : TileMap)
    (x : DispatchEvent) (h : ∀ k, DispatchEvent.unloadChildren k ≠ x) :
    ((flushTracker entries m).2.2).count x = 0 := by
  rw [List.count_eq_zero]
  intro hx
  obtain ⟨k, hek⟩ := flushTracker_events_shape entries m x hx
  exact h k hek.symm

/-- C3: at most one outstanding operation per slot per tile. ping never
modifies any tile already stored in the registry — all slot writes and all
dispatches happen in update — and one update pass dispatches at most one
child-creation job, at most one data-load job and at most one data-merge job
per key, even when the queues hold duplicate entries from repeated pings, and
dispatches no elevation job at all; each request function refuses to
dispatch into a slot that is already working or available. -/
theorem at_most_one_c3 (r : Registry) (k k2 : TileKey) (tile : TerrainTileNode)
    (parent : Option TerrainTileNode) :
    ((update r).2.count (DispatchEvent.loadChildren k) ≤ 1) ∧
    ((update r).2.count (DispatchEvent.loadData k) ≤ 1) ∧
    ((update r).2.count (DispatchEvent.mergeData k) ≤ 1) ∧
    ((update r).2.count (DispatchEvent.loadElevation k) = 0) ∧
    ((update r).2.count (DispatchEvent.mergeElevation k) = 0) ∧
    (lookupTile r.tiles k2 ≠ none →
      lookupTile (ping r tile parent).tiles k2 = lookupTile r.tiles k2) := by
  have hinjLC : ∀ k3 k4, DispatchEvent.loadChildren k3 = DispatchEvent.loadChildren k4 →
      k3 = k4 := fun k3 k4 h => DispatchEvent.loadChildren.inj h
  have hinjLD : ∀ k3 k4, DispatchEvent.loadData k3 = DispatchEvent.loadData k4 →
      k3 = k4 := fun k3 k4 h => DispatchEvent.loadData.inj h
  have hinjMD : ∀ k3 k4, DispatchEvent.mergeData k3 = DispatchEvent.mergeData k4 →
      k3 = k4 := fun k3 k4 h => DispatchEvent.mergeData.inj h
  have hidLC : ∀ t, (requestLoadChildren t).2 = false → (requestLoadChildren t).1 = t := by
    intro t ht
    rcases requestLoadChildren_cases t with ⟨he, hc⟩ | ⟨he, hc⟩
    · rw [he]
    · rw [he] at ht
      simp at ht
  have hpresLC : ∀ t, (requestLoadChildren t).2 = false →
      (requestLoadChildren { t with needsChildren := false }).2 = false := by
    intro t ht
    rw [requestLoadChildren_snd_eq] at ht ⊢
    exact ht
  have hstepLC : ∀ t, (requestLoadChildren t).2 = true →
      (requestLoadChildren { (requestLoadChildren t).1 with needsChildren := false }).2
        = false := by
    intro t ht
    rw [requestLoadChildren_snd_eq] at ht ⊢
    show ((requestLoadChildren t).1).childrenLoader.isEmpty = false
    rw [requestLoadChildren_fst_childrenLoader, if_pos ht]
    rfl
  have hidLD : ∀ t, (requestLoadData t).2 = false → (requestLoadData t).1 = t := by
    intro t ht
    rcases requestLoadData_cases t with ⟨he, hc⟩ | ⟨he, hc⟩
    · rw [he]
    · rw [he] at ht
      simp at ht
  have hpresLD : ∀ t, (requestLoadData t).2 = false →
      (requestLoadData (id t)).2 = false := fun t ht => ht
  have hstepLD : ∀ t, (requestLoadData t).2 = true →
      (requestLoadData (id (requestLoadData t).1)).2 = false := by
    intro t ht
    rw [requestLoadData_snd_eq] at ht
    show (requestLoadData (requestLoadData t).1).2 = false
    rw [requestLoadData_snd_eq, requestLoadData_fst_dataLoader]
    have hg : (t.dataLoader.isWorking || t.dataLoader.isAvailable) = false := by
      cases hgg : t.dataLoader.isWorking || t.dataLoader.isAvailable
      · rfl
      · rw [hgg] at ht
        simp at ht
    rw [if_neg (by simp [hg])]
    rfl
  have hidMD : ∀ t, (requestMergeData t).2 = false → (requestMergeData t).1 = t := by
    intro t ht
    rcases requestMergeData_cases t with ⟨he, hc⟩ | ⟨he, hc⟩
    · rw [he]
    · rw [he] at ht
      simp at ht
  have hpresMD : ∀ t, (requestMergeData t).2 = false →
      (requestMergeData (id t)).2 = false := fun t ht => ht
  have hstepMD : ∀ t, (requestMergeData t).2 = true →
      (requestMergeData (id (requestMergeData t).1)).2 = false := by
    intro t ht
    rw [requestMergeData_snd_eq] at ht
    show (requestMergeData (requestMergeData t).1).2 = false
    rw [requestMergeData_snd_eq, requestMergeData_fst_dataMerger]
    have hg : (t.dataMerger.isWorking || t.dataMerger.isAvailable) = false := by
      cases hgg : t.dataMerger.isWorking || t.dataMerger.isAvailable
      · rfl
      · rw [hgg] at ht
        simp at ht
    rw [if_neg (by simp [hg])]
    rfl
  refine ⟨?_, ?_, ?_, ?_, ?_, ?_⟩
  · rw [update_events_def]
    simp only [List.count_append]
    have z1 : ∀ mm : TileMap, ((processQueue (fun t => (t, true)) id
        DispatchEvent.updateTile r.updateData mm).2).count
          (DispatchEvent.loadChildren k) = 0 :=
      fun mm => processQueue_count_zero_ne _ _ _ _ mm _ (fun k3 => by simp)
    have z3 : ∀ mm : TileMap, ((processQueue requestLoadData id
        DispatchEvent.loadData r.loadData mm).2).count
          (DispatchEvent.loadChildren k) = 0 :=
      fun mm => processQueue_count_zero_ne _ _ _ _ mm _ (fun k3 => by simp)
    have z4 : ∀ mm : TileMap, ((processQueue requestMergeData id
        DispatchEvent.mergeData r.mergeData mm).2).count
          (DispatchEvent.loadChildren k) = 0 :=
      fun mm => processQueue_count_zero_ne _ _ _ _ mm _ (fun k3 => by simp)
    have z5 : ∀ mm : TileMap, ((flushTracker r.tracker mm).2.2).count
        (DispatchEvent.loadChildren k) = 0 :=
      fun mm => flushTracker_count_zero_ne _ mm _ (fun k3 => by simp)
    rw [z1, z3, z4, z5]
    have c2 := processQueue_count_le_one requestLoadChildren
      (fun t => { t with needsChildren := false }) DispatchEvent.loadChildren
      hinjLC hidLC hpresLC hstepLC r.loadChildren
      (processQueue (fun t => (t, true)) id DispatchEvent.updateTile
        r.updateData r.tiles).1 k
    omega
  · rw [update_events_def]
    simp only [List.count_append]
    have z1 : ∀ mm : TileMap, ((processQueue (fun t => (t, true)) id
        DispatchEvent.updateTile r.updateData mm).2).count
          (DispatchEvent.loadData k) = 0 :=
      fun mm => processQueue_count_zero_ne _ _ _ _ mm _ (fun k3 => by simp)
    have z2 : ∀ mm : TileMap, ((processQueue requestLoadChildren
        (fun t => { t with needsChildren := false }) DispatchEvent.loadChildren
        r.loadChildren mm).2).count (DispatchEvent.loadData k) = 0 :=
      fun mm => processQueue_count_zero_ne _ _ _ _ mm _ (fun k3 => by simp)
    have z4 : ∀ mm : TileMap, ((processQueue requestMergeData id
        DispatchEvent.mergeData r.mergeData mm).2).count
          (DispatchEvent.loadData k) = 0 :=
      fun mm => processQueue_count_zero_ne _ _ _ _ mm _ (fun k3 => by simp)
    have z5 : ∀ mm : TileMap, ((flushTracker r.tracker mm).2.2).count
        (DispatchEvent.loadData k) = 0 :=
      fun mm => flushTracker_count_zero_ne _ mm _ (fun k3 => by simp)
    rw [z1, z2, z4, z5]
    have c3 := processQueue_count_le_one requestLoadData id DispatchEvent.loadData
      hinjLD hidLD hpresLD hstepLD r.loadData
      (processQueue requestLoadChildren (fun t => { t with needsChildren := false })
        DispatchEvent.loadChildren r.loadChildren
        (processQueue (fun t => (t, true)) id DispatchEvent.updateTile
          r.updateData r.tiles).1).1 k
    omega
  · rw [update_events_def]
    simp only [List.count_append]
    have z1 : ∀ mm : TileMap, ((processQueue (fun t => (t, true)) id
        DispatchEvent.updateTile r.updateData mm).2).count
          (DispatchEvent.mergeData k) = 0 :=
      fun mm => processQueue_count_zero_ne _ _ _ _ mm _ (fun k3 => by simp)
    have z2 : ∀ mm : TileMap, ((processQueue requestLoadChildren
        (fun t => { t with needsChildren := false }) DispatchEvent.loadChildren
        r.loadChildren mm).2).count (DispatchEvent.mergeData k) = 0 :=
      fun mm => processQueue_count_zero_ne _ _ _ _ mm _ (fun k3 => by simp)
    have z3 : ∀ mm : TileMap, ((processQueue requestLoadData id
        DispatchEvent.loadData r.loadData mm).2).count
          (DispatchEvent.mergeData k) = 0 :=
      fun mm => processQueue_count_zero_ne _ _ _ _ mm _ (fun k3 => by simp)
    have z5 : ∀ mm : TileMap, ((flushTracker r.tracker mm).2.2).count
        (DispatchEvent.mergeData k) = 0 :=
      fun mm => flushTracker_count_zero_ne _ mm _ (fun k3 => by simp)
    rw [z1, z2, z3, z5]
    have c4 := processQueue_count_le_one requestMergeData id DispatchEvent.mergeData
      hinjMD hidMD hpresMD hstepMD r.mergeData
      (processQueue requestLoadData id DispatchEvent.loadData r.loadData
        (processQueue requestLoadChildren (fun t => { t with needsChildren := false })
          DispatchEvent.loadChildren r.loadChildren
          (processQueue (fun t => (t, true)) id DispatchEvent.updateTile
            r.updateData r.tiles).1).1).1 k
    omega
  · rw [List.count_eq_zero]
    intro he
    rcases update_event_cases r _ he with ⟨k3, hk3, hek⟩ | ⟨k3, hk3, hek⟩ |
      ⟨k3, hk3, hek⟩ | ⟨k3, hk3, hek⟩ | ⟨k3, hek⟩ <;> simp at hek
  · rw [List.count_eq_zero]
    intro he
    rcases update_event_cases r _ he with ⟨k3, hk3, hek⟩ | ⟨k3, hk3, hek⟩ |
      ⟨k3, hk3, hek⟩ | ⟨k3, hk3, hek⟩ | ⟨k3, hek⟩ <;> simp at hek
  · intro hne
    cases hl : lookupTile r.tiles tile.key with
    | some u => rw [ping_tiles_of_mem r tile u parent hl]
    | none =>
      rw [ping_tiles_of_absent r tile parent hl]
      by_cases hk : tile.key = k2
      · rw [hk] at hl
        exact absurd hl hne
      · simp [lookupTile, hk]

/-- Concrete registry with duplicate queue entries for the registered fresh
tile, as repeated pings without an intervening update would produce. -/
def exRegDup : Registry :=
  { emptyRegistry with
      tiles := [(exKey, exTile)]
      tracker := [(exKey, true)]
      loadChildren := [exKey, exKey]
      loadData := [exKey, exKey]
      mergeData := [exKey, exKey] }

/-- C3 witness: on a concrete registry with duplicated queue entries, update
dispatches at most one data load for the key, and pinging a registered tile
leaves its stored entry untouched. -/
theorem at_most_one_c3_witness :
    lookupTile exRegDup.tiles exKey ≠ none ∧
    lookupTile (ping exRegDup exTile none).tiles exKey = lookupTile exRegDup.tiles exKey ∧
    (update exRegDup).2.count (DispatchEvent.loadData exKey) ≤ 1 :=
  ⟨by decide,
   (at_most_one_c3 exRegDup exKey exKey exTile none).2.2.2.2.2 (by decide),
   (at_most_one_c3 exRegDup exKey exKey exTile none).2.1⟩

theorem TileMapWF_cons (m : TileMap) (t : TerrainTileNode) (hm : TileMapWF m) :
    TileMapWF ((t.key, t) :: m) := by
  intro k2 u h
  simp only [lookupTile] at h
  by_cases hk : t.key = k2
  · rw [if_pos hk] at h
    cases h
    exact hk
  · rw [if_neg hk] at h
    exact hm k2 u h

theorem update_loops_preserve (r : Registry) (P : TerrainTileNode → Prop)
    (hP1 : ∀ u, P u → P { u with needsChildren := false })
    (hP2 : ∀ u s, P u → P { u with childrenLoader := s })
    (hP3 : ∀ u s, P u → P { u with dataLoader := s })
    (hP4 : ∀ u s, P u → P { u with dataMerger := s })
    (k : TileKey) (u : TerrainTileNode)
    (hu : lookupTile r.tiles k = some u) (hPu : P u) :
    ∃ v, lookupTile
      (processQueue requestMergeData id DispatchEvent.mergeData r.mergeData
        (processQueue requestLoadData id DispatchEvent.loadData r.loadData
          (processQueue requestLoadChildren (fun t => { t with needsChildren := false })
            DispatchEvent.loadChildren r.loadChildren
            (processQueue (fun t => (t, true)) id DispatchEvent.updateTile
              r.updateData r.tiles).1).1).1).1 k = some v ∧ P v := by
  obtain ⟨v1, hv1, hq1⟩ := processQueue_preserves (fun t => (t, true)) id
    DispatchEvent.updateTile P (fun w hw => hw) r.updateData r.tiles k u hu hPu
  obtain ⟨v2, hv2, hq2⟩ := processQueue_preserves requestLoadChildren
    (fun t => { t with needsChildren := false }) DispatchEvent.loadChildren P
    (fun w hw => by
      rcases requestLoadChildren_cases w with ⟨he, _⟩ | ⟨he, _⟩ <;> rw [he]
      · exact hP1 w hw
      · exact hP1 _ (hP2 w SlotState.working hw))
    r.loadChildren _ k v1 hv1 hq1
  obtain ⟨v3, hv3, hq3⟩ := processQueue_preserves requestLoadData id
    DispatchEvent.loadData P
    (fun w hw => by
      rcases requestLoadData_cases w with ⟨he, _⟩ | ⟨he, _⟩ <;> rw [he]
      · exact hw
      · exact hP3 w SlotState.working hw)
    r.loadData _ k v2 hv2 hq2
  obtain ⟨v4, hv4, hq4⟩ := processQueue_preserves requestMergeData id
    DispatchEvent.mergeData P
    (fun w hw => by
      rcases requestMergeData_cases w with ⟨he, _⟩ | ⟨he, _⟩ <;> rw [he]
      · exact hw
      · exact hP4 w SlotState.working hw)
    r.mergeData _ k v3 hv3 hq3
  exact ⟨v4, hv4, hq4⟩

theorem update_loops_WF (r : Registry) (hwf : TileMapWF r.tiles) :
    TileMapWF
      (processQueue requestMergeData id DispatchEvent.mergeData r.mergeData
        (processQueue requestLoadData id DispatchEvent.loadData r.loadData
          (processQueue requestLoadChildren (fun t => { t with needsChildren := false })
            DispatchEvent.loadChildren r.loadChildren
            (processQueue (fun t => (t, true)) id DispatchEvent.updateTile
              r.updateData r.tiles).1).1).1).1 := by
  refine processQueue_WF _ _ _ ?_ _ _
    (processQueue_WF _ _ _ ?_ _ _
      (processQueue_WF _ _ _ ?_ _ _
        (processQueue_WF _ _ _ (fun t => rfl) _ _ hwf)))
  · intro t
    rcases requestMergeData_cases t with ⟨he, _⟩ | ⟨he, _⟩ <;> simp [he]
  · intro t
    rcases requestLoadData_cases t with ⟨he, _⟩ | ⟨he, _⟩ <;> simp [he]
  · intro t
    rcases requestLoadChildren_cases t with ⟨he, _⟩ | ⟨he, _⟩ <;> simp [he]

/-- C4: eviction. In a registry whose map is well formed (every node stored
under its own key), a tracked tile whose tracker entry was not touched since
the previous flush (it was not pinged between the two update calls) and whose
doNotExpire flag is clear is removed from the key→node map by the next
update flush — and when its parent is present in the map as a non-expiring
tile, that parent is asked to unload its children; a tile with doNotExpire
set is never removed by the flush, regardless of how many tiles are tracked;
createRootTiles sets doNotExpire on every root tile. -/
theorem eviction_c4 (r : Registry) (k : TileKey) (t : TerrainTileNode)
    (hwf : TileMapWF r.tiles) (htr : (k, false) ∈ r.tracker)
    (hl : lookupTile r.tiles k = some t) :
    (t.doNotExpire = false → lookupTile (update r).1.tiles k = none ∧
      (∀ p, lookupTile r.tiles k.createParentKey = some p → p.doNotExpire = true →
        DispatchEvent.unloadChildren k.createParentKey ∈ (update r).2)) ∧
    (t.doNotExpire = true →
      ∃ v, lookupTile (update r).1.tiles k = some v ∧ v.doNotExpire = true) ∧
    (∀ keys tile2, tile2 ∈ createRootTiles keys → tile2.doNotExpire = true) := by
  have hkey : t.key = k := hwf k t hl
  have hwf4 := update_loops_WF r hwf
  refine ⟨?_, ?_, ?_⟩
  · intro hx
    have hchain := update_loops_preserve r
      (fun u => u.doNotExpire = false ∧ u.key = k)
      (fun u hu => hu) (fun u s hu => hu) (fun u s hu => hu) (fun u s hu => hu)
      k t hl ⟨hx, hkey⟩
    obtain ⟨v4, hv4, hq4⟩ := hchain
    constructor
    · rw [update_tiles_def]
      refine flushTracker_erases r.tracker _ k ?_ htr
      intro w hw
      rw [hv4] at hw
      cases hw
      exact hq4
    · intro p hp hpx
      have hpchain := update_loops_preserve r
        (fun u => u.doNotExpire = true)
        (fun u hu => hu) (fun u s hu => hu) (fun u s hu => hu) (fun u s hu => hu)
        k.createParentKey p hp hpx
      obtain ⟨p4, hp4, hpq4⟩ := hpchain
      rw [update_events_def]
      simp only [List.mem_append]
      exact Or.inr (flushTracker_unload_event r.tracker _ k v4 p4 hwf4 hv4 hq4.1
        hp4 hpq4 htr)
  · intro hx
    have hchain := update_loops_preserve r
      (fun u => u.doNotExpire = true)
      (fun u hu => hu) (fun u s hu => hu) (fun u s hu => hu) (fun u s hu => hu)
      k t hl hx
    obtain ⟨v4, hv4, hq4⟩ := hchain
    rw [update_tiles_def]
    exact flushTracker_keeps_doNotExpire r.tracker _ k v4 hwf4 hv4 hq4
  · intro keys tile2 hmem
    unfold createRootTiles at hmem
    rw [List.mem_map] at hmem
    obtain ⟨k3, _, hk3⟩ := hmem
    rw [← hk3]

/-- Concrete child tile under the root, registered and tracked but not pinged
since the last flush; its doNotExpire root parent is registered too. -/
def exRootTile : TerrainTileNode :=
  { mkFreshTile (TileKey.mk 0 0 0) none with doNotExpire := true }

/-- Concrete tile at exKey whose stored parent key is the root cell. -/
def exChildTile : TerrainTileNode := mkFreshTile exKey none

/-- Concrete registry for the C4 witness: a doNotExpire root and a child, both
tracked with untouched entries (neither was pinged since the last flush). -/
def exRegEvict : Registry :=
  { emptyRegistry with
      tiles := [(TileKey.mk 0 0 0, exRootTile), (exKey, exChildTile)]
      tracker := [(TileKey.mk 0 0 0, false), (exKey, false)] }

theorem TileMapWF_of_entries (m : TileMap) (h : ∀ e ∈ m, (e.2).key = e.1) :
    TileMapWF m := by
  intro k t hl
  induction m with
  | nil => cases hl
  | cons hd rest ih =>
    simp only [lookupTile] at hl
    by_cases hk : hd.1 = k
    · rw [if_pos hk] at hl
      cases hl
      rw [← hk]
      exact h hd (List.mem_cons_self hd rest)
    · rw [if_neg hk] at hl
      exact ih (fun e he => h e (List.mem_cons_of_mem hd he)) hl

/-- C4 witness: in the concrete registry the unpinged child is evicted by
update, its root parent is asked to unload children, and the unpinged root
itself survives with doNotExpire still set. -/
theorem eviction_c4_witness :
    lookupTile (update exRegEvict).1.tiles exKey = none ∧
    DispatchEvent.unloadChildren (exKey.createParentKey) ∈ (update exRegEvict).2 ∧
    (∃ v, lookupTile (update exRegEvict).1.tiles (TileKey.mk 0 0 0) = some v ∧
      v.doNotExpire = true) := by
  refine ⟨?_, ?_, ?_⟩
  · exact ((eviction_c4 exRegEvict exKey exChildTile
      (TileMapWF_of_entries _ (by decide)) (by decide) (by decide)).1 (by decide)).1
  · exact ((eviction_c4 exRegEvict exKey exChildTile
      (TileMapWF_of_entries _ (by decide)) (by decide) (by decide)).1 (by decide)).2
      exRootTile (by decide) (by decide)
  · exact (eviction_c4 exRegEvict (TileKey.mk 0 0 0) exRootTile
      (TileMapWF_of_entries _ (by decide)) (by decide) (by decide)).2.1 (by decide)

theorem SlotState.isEmpty_false_of_isAvailable (s : SlotState)
    (h : s.isAvailable = true) : s.isEmpty = false := by
  cases s <;> simp [SlotState.isAvailable, SlotState.isEmpty] at h ⊢

/-- Concrete tile awaiting its data merge: data load available, merge
operation scheduled (dataMerger working), children still wanted. -/
def exTileMerging : TerrainTileNode :=
  { mkFreshTile exKey none with
      dataLoader := SlotState.available
      dataMerger := SlotState.working }

/-- The empty TerrainTileModel a failed fetch produces: no color layers, no
valid heightfield, no valid normal map. -/
def exEmptyModel : TerrainTileModel :=
  { colorLayers := []
    elevation := { heightfield := { valid := false, image := 0 }, matrix := 0 }
    normalMap := { image := { valid := false, image := 0 }, matrix := 0 } }

/-- C8 counterexample: merging the empty model leaves the tile — render model
and descriptor version — unchanged, but the merge closure still returns true,
so the dataMerger future completes and becomes available, and a subsequent
ping of the tile (needsChildren still set) pushes it onto loadChildren: the
tile does transition out of its load-pending gate, contrary to the claim. -/
theorem empty_merge_c8_counterexample :
    mergeDataBody false (some exTileMerging) exEmptyModel = (some exTileMerging, true) ∧
    (completeMergeData exTileMerging false exEmptyModel).dataMerger.isAvailable = true ∧
    (ping emptyRegistry (completeMergeData exTileMerging false exEmptyModel)
      none).loadChildren = [exKey] := by decide

/-- C8 (amended): when the data load completes with an empty TerrainTileModel
the frame-synchronous merge leaves the tile unchanged — render model and GPU
descriptors untouched — yet the merge closure returns true, so the dataMerger
future completes and the tile leaves its load-pending gate; the load is not
retried, because the dataLoader and dataMerger slots remain available and
ping re-requests only empty slots. -/
theorem empty_merge_c8_amended (t : TerrainTileNode) (model : TerrainTileModel)
    (hempty : model.isEmptyModel = true) :
    mergeDataBody false (some t) model = (some t, true) ∧
    (t.dataLoader.isAvailable = true → ∀ r parent,
      (ping r (completeMergeData t false model) parent).loadData = r.loadData ∧
      (ping r (completeMergeData t false model) parent).mergeData = r.mergeData) := by
  unfold TerrainTileModel.isEmptyModel at hempty
  simp only [Bool.and_eq_true, Bool.not_eq_true'] at hempty
  obtain ⟨⟨hcl, hhf⟩, hnm⟩ := hempty
  rw [List.isEmpty_iff] at hcl
  have hbody : mergeDataBody false (some t) model = (some t, true) := by
    unfold mergeDataBody applyMergeData
    simp [hcl, hhf, hnm]
  refine ⟨hbody, ?_⟩
  intro hdl r parent
  have hcomp : completeMergeData t false model =
      { t with dataMerger := SlotState.available } := by
    unfold completeMergeData
    rw [hbody]
  rw [hcomp]
  constructor
  · rw [ping_loadData_eq]
    have hde : ({ t with dataMerger := SlotState.available } :
        TerrainTileNode).dataLoader.isEmpty = false := by
      show t.dataLoader.isEmpty = false
      exact SlotState.isEmpty_false_of_isAvailable t.dataLoader hdl
    simp [hde]
  · rw [ping_mergeData_eq]
    simp [SlotState.isEmpty]

/-- C8 witness: the concrete empty model is empty, its merge returns the tile
unchanged with result true, and pinging the completed tile re-requests
nothing into the data slots. -/
theorem empty_merge_c8_witness :
    exEmptyModel.isEmptyModel = true ∧
    mergeDataBody false (some exTileMerging) exEmptyModel = (some exTileMerging, true) ∧
    (ping exRegLoad (completeMergeData exTileMerging false exEmptyModel)
      none).loadData = exRegLoad.loadData :=
  ⟨by decide,
   (empty_merge_c8_amended exTileMerging exEmptyModel (by decide)).1,
   (((empty_merge_c8_amended exTileMerging exEmptyModel (by decide)).2 (by decide))
     exRegLoad none).1⟩

/-- C6: Scenario B. A tile with data and elevation merges available,
needsChildren set, its childrenLoader slot still empty (children never yet
dispatched) and not yet known to the registry (no map entry, no tracker
entry, not yet queued) — one ping followed by one update dispatches exactly
one child-creation job for it and clears its needsChildren flag, so any
subsequent ping of the stored tile enqueues no further child-creation
work. -/
theorem scenario_b_c6 (r : Registry) (t : TerrainTileNode)
    (parent : Option TerrainTileNode)
    (hwf : TileMapWF r.tiles)
    (hdm : t.dataMerger.isAvailable = true)
    (hem : t.elevationMerger.isAvailable = true)
    (hnc : t.needsChildren = true)
    (hcl : t.childrenLoader.isEmpty = true)
    (habs : lookupTile r.tiles t.key = none)
    (hq : t.key ∉ r.loadChildren)
    (htr : ∀ b, (t.key, b) ∉ r.tracker) :
    ((update (ping r t parent)).2.count (DispatchEvent.loadChildren t.key) = 1) ∧
    (∃ v, lookupTile (update (ping r t parent)).1.tiles t.key = some v ∧
      v.needsChildren = false ∧
      ∀ r2 parent2, (ping r2 v parent2).loadChildren = r2.loadChildren) := by
  have hinjLC : ∀ k3 k4, DispatchEvent.loadChildren k3 = DispatchEvent.loadChildren k4 →
      k3 = k4 := fun k3 k4 h => DispatchEvent.loadChildren.inj h
  have hq1 : (ping r t parent).loadChildren = r.loadChildren ++ [t.key] := by
    rw [ping_loadChildren_eq]
    simp [hdm, hnc]
  have htracker : (ping r t parent).tracker = r.tracker ++ [(t.key, true)] := by
    rw [ping_tracker_eq]
    exact touchEntry_of_not_mem r.tracker t.key htr
  have htiles : (ping r t parent).tiles = (t.key, t) :: r.tiles :=
    ping_tiles_of_absent r t parent habs
  have hlook1 : lookupTile (ping r t parent).tiles t.key = some t := by
    rw [htiles]
    simp [lookupTile]
  -- the update-hook loop does not change any stored node
  obtain ⟨w1, hw1, hp1⟩ := processQueue_preserves (fun u => (u, true)) id
    DispatchEvent.updateTile (fun u => u = t) (fun u hu => hu)
    (ping r t parent).updateData (ping r t parent).tiles t.key t hlook1 rfl
  rw [hp1] at hw1
  -- the prefix of the loadChildren queue does not touch this key
  have hlookA : lookupTile (processQueue requestLoadChildren
      (fun u => { u with needsChildren := false }) DispatchEvent.loadChildren
      r.loadChildren
      (processQueue (fun u => (u, true)) id DispatchEvent.updateTile
        (ping r t parent).updateData (ping r t parent).tiles).1).1 t.key = some t := by
    rw [processQueue_lookup_not_mem _ _ _ r.loadChildren _ t.key hq]
    exact hw1
  have hdisp : (requestLoadChildren t).2 = true := by
    rw [requestLoadChildren_snd_eq]
    exact hcl
  have hsingle := processQueue_singleton_dispatch requestLoadChildren
    (fun u => { u with needsChildren := false }) DispatchEvent.loadChildren t.key
    _ t hlookA hdisp
  have hloop2 : processQueue requestLoadChildren
      (fun u => { u with needsChildren := false }) DispatchEvent.loadChildren
      (r.loadChildren ++ [t.key])
      (processQueue (fun u => (u, true)) id DispatchEvent.updateTile
        (ping r t parent).updateData (ping r t parent).tiles).1 =
      (setTile (processQueue requestLoadChildren
          (fun u => { u with needsChildren := false }) DispatchEvent.loadChildren
          r.loadChildren
          (processQueue (fun u => (u, true)) id DispatchEvent.updateTile
            (ping r t parent).updateData (ping r t parent).tiles).1).1 t.key
        { (requestLoadChildren t).1 with needsChildren := false },
       (processQueue requestLoadChildren
          (fun u => { u with needsChildren := false }) DispatchEvent.loadChildren
          r.loadChildren
          (processQueue (fun u => (u, true)) id DispatchEvent.updateTile
            (ping r t parent).updateData (ping r t parent).tiles).1).2 ++
         [DispatchEvent.loadChildren t.key]) := by
    rw [processQueue_append, hsingle]
  have hstored2 : lookupTile (setTile (processQueue requestLoadChildren
      (fun u => { u with needsChildren := false }) DispatchEvent.loadChildren
      r.loadChildren
      (processQueue (fun u => (u, true)) id DispatchEvent.updateTile
        (ping r t parent).updateData (ping r t parent).tiles).1).1 t.key
      { (requestLoadChildren t).1 with needsChildren := false }) t.key =
      some { (requestLoadChildren t).1 with needsChildren := false } :=
    lookupTile_setTile_self _ t.key _ t hlookA
  have hnc2 : ({ (requestLoadChildren t).1 with needsChildren := false } :
      TerrainTileNode).needsChildren = false := rfl
  -- the data-load and data-merge loops preserve the cleared flag
  obtain ⟨w3, hw3, hp3⟩ := processQueue_preserves requestLoadData id
    DispatchEvent.loadData (fun u => u.needsChildren = false)
    (fun w hw => by
      rcases requestLoadData_cases w with ⟨he, _⟩ | ⟨he, _⟩ <;> rw [he] <;> exact hw)
    (ping r t parent).loadData _ t.key _ hstored2 hnc2
  obtain ⟨w4, hw4, hp4⟩ := processQueue_preserves requestMergeData id
    DispatchEvent.mergeData (fun u => u.needsChildren = false)
    (fun w hw => by
      rcases requestMergeData_cases w with ⟨he, _⟩ | ⟨he, _⟩ <;> rw [he] <;> exact hw)
    (ping r t parent).mergeData _ t.key _ hw3 hp3
  -- well-formedness survives up to the flush
  have ht2key : ({ (requestLoadChildren t).1 with needsChildren := false } :
      TerrainTileNode).key = t.key := by
    rcases requestLoadChildren_cases t with ⟨he, _⟩ | ⟨he, _⟩ <;> simp [he]
  have hwfPing : TileMapWF (ping r t parent).tiles := by
    rw [htiles]
    exact TileMapWF_cons r.tiles t hwf
  have hwf1 : TileMapWF (processQueue (fun u => (u, true)) id DispatchEvent.updateTile
      (ping r t parent).updateData (ping r t parent).tiles).1 :=
    processQueue_WF _ _ _ (fun u => rfl) _ _ hwfPing
  have hwfA : TileMapWF (processQueue requestLoadChildren
      (fun u => { u with needsChildren := false }) DispatchEvent.loadChildren
      r.loadChildren
      (processQueue (fun u => (u, true)) id DispatchEvent.updateTile
        (ping r t parent).updateData (ping r t parent).tiles).1).1 :=
    processQueue_WF _ _ _
      (fun u => by rcases requestLoadChildren_cases u with ⟨he, _⟩ | ⟨he, _⟩ <;> simp [he])
      _ _ hwf1
  have hwf2 : TileMapWF (setTile (processQueue requestLoadChildren
      (fun u => { u with needsChildren := false }) DispatchEvent.loadChildren
      r.loadChildren
      (processQueue (fun u => (u, true)) id DispatchEvent.updateTile
        (ping r t parent).updateData (ping r t parent).tiles).1).1 t.key
      { (requestLoadChildren t).1 with needsChildren := false }) :=
    TileMapWF_setTile _ t.key _ hwfA ht2key
  have hwf3 : TileMapWF (processQueue requestLoadData id DispatchEvent.loadData
      (ping r t parent).loadData (setTile (processQueue requestLoadChildren
        (fun u => { u with needsChildren := false }) DispatchEvent.loadChildren
        r.loadChildren
        (processQueue (fun u => (u, true)) id DispatchEvent.updateTile
          (ping r t parent).updateData (ping r t parent).tiles).1).1 t.key
        { (requestLoadChildren t).1 with needsChildren := false })).1 :=
    processQueue_WF _ _ _
      (fun u => by rcases requestLoadData_cases u with ⟨he, _⟩ | ⟨he, _⟩ <;> simp [he])
      _ _ hwf2
  have hwf4 : TileMapWF (processQueue requestMergeData id DispatchEvent.mergeData
      (ping r t parent).mergeData (processQueue requestLoadData id
        DispatchEvent.loadData (ping r t parent).loadData
        (setTile (processQueue requestLoadChildren
          (fun u => { u with needsChildren := false }) DispatchEvent.loadChildren
          r.loadChildren
          (processQueue (fun u => (u, true)) id DispatchEvent.updateTile
            (ping r t parent).updateData (ping r t parent).tiles).1).1 t.key
          { (requestLoadChildren t).1 with needsChildren := false })).1).1 :=
    processQueue_WF _ _ _
      (fun u => by rcases requestMergeData_cases u with ⟨he, _⟩ | ⟨he, _⟩ <;> simp [he])
      _ _ hwf3
  -- the flush keeps the touched entry and its cleared flag
  have htc : ∀ b, (t.key, b) ∈ r.tracker ++ [(t.key, true)] → b = true := by
    intro b hb
    rw [List.mem_append] at hb
    rcases hb with hb | hb
    · exact absurd hb (htr b)
    · simp at hb
      exact hb
  obtain ⟨v, hv, hvnc⟩ := flushTracker_keeps_touched
    (fun u => u.needsChildren = false)
    (fun u hu => by
      show u.unloadChildren.needsChildren = false
      rw [unloadChildren_needsChildren]
      exact hu)
    (r.tracker ++ [(t.key, true)]) _ t.key w4 hwf4 hw4 hp4 htc
  constructor
  · rw [update_events_def, hq1, htracker, hloop2]
    simp only [List.count_append]
    have z1 : ∀ mm : TileMap, ((processQueue (fun u => (u, true)) id
        DispatchEvent.updateTile (ping r t parent).updateData mm).2).count
          (DispatchEvent.loadChildren t.key) = 0 :=
      fun mm => processQueue_count_zero_ne _ _ _ _ mm _ (fun k3 => by simp)
    have z3 : ∀ mm : TileMap, ((processQueue requestLoadData id
        DispatchEvent.loadData (ping r t parent).loadData mm).2).count
          (DispatchEvent.loadChildren t.key) = 0 :=
      fun mm => processQueue_count_zero_ne _ _ _ _ mm _ (fun k3 => by simp)
    have z4 : ∀ mm : TileMap, ((processQueue requestMergeData id
        DispatchEvent.mergeData (ping r t parent).mergeData mm).2).count
          (DispatchEvent.loadChildren t.key) = 0 :=
      fun mm => processQueue_count_zero_ne _ _ _ _ mm _ (fun k3 => by simp)
    have z5 : ∀ mm : TileMap, ((flushTracker (r.tracker ++ [(t.key, true)]) mm).2.2).count
        (DispatchEvent.loadChildren t.key) = 0 :=
      fun mm => flushTracker_count_zero_ne _ mm _ (fun k3 => by simp)
    have zA : ((processQueue requestLoadChildren
        (fun u => { u with needsChildren := false }) DispatchEvent.loadChildren
        r.loadChildren
        (processQueue (fun u => (u, true)) id DispatchEvent.updateTile
          (ping r t parent).updateData (ping r t parent).tiles).1).2).count
          (DispatchEvent.loadChildren t.key) = 0 :=
      processQueue_count_zero_of_not_mem _ _ _ hinjLC r.loadChildren _ t.key hq
    rw [z1, z3, z4, z5, zA]
    simp
  · refine ⟨v, ?_, hvnc, ?_⟩
    · rw [update_tiles_def, hq1, htracker, hloop2]
      exact hv
    · intro r2 parent2
      rw [ping_loadChildren_eq]
      simp [hvnc]

/-- Concrete tile for the C6 witness: merges available, children wanted,
children loader still empty. -/
def exTileReady : TerrainTileNode :=
  { mkFreshTile exKey none with
      dataMerger := SlotState.available
      elevationMerger := SlotState.available }

/-- C6 witness: pinging the ready tile into the empty registry and running one
update dispatches exactly one child-creation job and stores the tile with
needsChildren cleared. -/
theorem scenario_b_c6_witness :
    ((update (ping emptyRegistry exTileReady none)).2.count
      (DispatchEvent.loadChildren exKey) = 1) ∧
    (∃ v, lookupTile (update (ping emptyRegistry exTileReady none)).1.tiles exKey
      = some v ∧ v.needsChildren = false ∧
      ∀ r2 parent2, (ping r2 v parent2).loadChildren = r2.loadChildren) :=
  scenario_b_c6 emptyRegistry exTileReady none
    (TileMapWF_of_entries _ (by decide)) (by decide) (by decide) (by decide)
    (by decide) (by decide) (by decide) (by decide)

end Rocky
